import Mathlib

/-!
# Verification of the audit-log replication engine of the Supplier Management System

Shallow embedding of `src/app.py`: the SQLite main database (business tables,
append-only audit tables populated by `AFTER INSERT` triggers, and the dedup
ledger tables `products_backup_ids` / `order_items_backup_ids`), the separate
backup database (`products_backup` / `order_items_backup`), and the operations
of the system: entity inserts (with their triggers), the two replication
routines `replicate_product_to_backup` / `replicate_order_item_to_backup`,
the demo seeding routine `seed_demo`, the supplier-deactivation update and
the read-only backup viewer.

Replication passes are modelled with an explicit `PassOutcome` parameter so
that interrupted executions can be reasoned about: the Python code executes
the per-row `INSERT`s into both connections' open transactions and only then
runs `conn.commit()` (main DB: the ledger marks) followed by `bconn.commit()`
(backup DB).  A connection closed (or a process stopped) before its commit
rolls its transaction back, which is what the non-`success` outcomes encode.

`REAL` columns (`unit_price`, `quantity`) are modelled as `Rat`; the
replication engine only copies them, never computes with them.  Timestamps
(`date('now')` / `datetime('now')`) are modelled by a logical clock on the
state that advances on every committed operation.
-/

set_option autoImplicit false

namespace SupplierMgmt

/-- Row of the `suppliers` table. -/
structure SupplierRow where
  supplier_id : Nat
  name : String
  contact_name : String
  phone : String
  email : String
  address : String
  city : String
  state : String
  country : String
  is_active : Nat
  created_at : Nat
deriving DecidableEq

/-- Row of the `products` table. -/
structure ProductRow where
  product_id : Nat
  name : String
  sku : String
  unit_price : Rat
  is_active : Nat
  created_at : Nat
deriving DecidableEq

/-- Row of the `purchase_orders` table. -/
structure PurchaseOrderRow where
  order_id : Nat
  supplier_id : Nat
  order_date : Nat
  status : String
  notes : Option String
deriving DecidableEq

/-- Row of the `purchase_order_items` table (`product_id` is nullable). -/
structure PurchaseOrderItemRow where
  item_id : Nat
  order_id : Nat
  product_id : Option Nat
  description : String
  quantity : Rat
  unit_price : Rat
deriving DecidableEq

/-- Row of the `products_audit` table (filled by trigger `trg_products_audit`). -/
structure ProductsAuditRow where
  audit_id : Nat
  product_id : Nat
  name : String
  sku : String
  unit_price : Rat
  audit_time : Nat
deriving DecidableEq

/-- Row of the `order_items_audit` table (filled by trigger `trg_order_items_audit`). -/
structure OrderItemsAuditRow where
  audit_id : Nat
  item_id : Nat
  order_id : Nat
  product_id : Option Nat
  description : String
  quantity : Rat
  unit_price : Rat
  audit_time : Nat
deriving DecidableEq

/-- Row of the backup table `products_backup`.

`src_audit_id` is a ghost field (not a column of the SQLite table): it records
which `products_audit` row the backup row was copied from, and is used only to
state the cross-store correspondence.  The executable columns
(`backup_id`, `product_id`, `name`, `sku`, `unit_price`, `backed_up_at`)
are exactly those of the table. -/
structure ProductsBackupRow where
  backup_id : Nat
  product_id : Nat
  name : String
  sku : String
  unit_price : Rat
  backed_up_at : Nat
  src_audit_id : Nat
deriving DecidableEq

/-- Row of the backup table `order_items_backup`, with the same ghost
`src_audit_id` field as `ProductsBackupRow`. -/
structure OrderItemsBackupRow where
  backup_id : Nat
  item_id : Nat
  order_id : Nat
  product_id : Option Nat
  description : String
  quantity : Rat
  unit_price : Rat
  backed_up_at : Nat
  src_audit_id : Nat
deriving DecidableEq

/-- The main database `supplier_mgmt.db`.

The two `*_audit` tables use `INTEGER PRIMARY KEY AUTOINCREMENT`, so SQLite
keeps a persistent per-table counter in `sqlite_sequence` that survives
`DELETE FROM`; the `*_seq` fields model those counters (audit ids are never
reused, even after `seed_demo`'s wipe). -/
structure MainDB where
  suppliers : List SupplierRow
  products : List ProductRow
  purchase_orders : List PurchaseOrderRow
  purchase_order_items : List PurchaseOrderItemRow
  products_audit : List ProductsAuditRow
  order_items_audit : List OrderItemsAuditRow
  products_backup_ids : List Nat
  order_items_backup_ids : List Nat
  products_audit_seq : Nat
  order_items_audit_seq : Nat
deriving DecidableEq

/-- The backup database `supplier_backup.db`; the `*_seq` fields model the
`AUTOINCREMENT` counters of the two backup tables. -/
structure BackupDB where
  products_backup : List ProductsBackupRow
  order_items_backup : List OrderItemsBackupRow
  products_backup_seq : Nat
  order_items_backup_seq : Nat
deriving DecidableEq

/-- Combined state: both stores plus a logical clock used to stamp
`created_at` / `audit_time` / `backed_up_at` values. -/
structure SysState where
  main : MainDB
  backup : BackupDB
  clock : Nat
deriving DecidableEq

/-- Fresh `rowid` for a table whose primary key is a plain
`INTEGER PRIMARY KEY` (no `AUTOINCREMENT`): one more than the largest id in
use (SQLite reuses ids of deleted rows for such tables). -/
def nextRowId (ids : List Nat) : Nat :=
  ids.foldr max 0 + 1

/-- Empty stores, as created by the schema scripts on first request. -/
def initState : SysState :=
  { main := { suppliers := [], products := [], purchase_orders := [],
              purchase_order_items := [], products_audit := [],
              order_items_audit := [], products_backup_ids := [],
              order_items_backup_ids := [], products_audit_seq := 0,
              order_items_audit_seq := 0 },
    backup := { products_backup := [], order_items_backup := [],
                products_backup_seq := 0, order_items_backup_seq := 0 },
    clock := 0 }

/-- Outcome of one entity-insert transaction.  `storageFailure` models a
storage-layer failure anywhere inside the transaction (including a failure
of the trigger's audit insert): SQLite aborts the whole statement, so the
entity row and the audit row are both discarded. -/
inductive WriteOutcome where
  | success
  | storageFailure
deriving DecidableEq

/-- The snapshot row appended to `products_audit` by trigger
`trg_products_audit` for an insert of `(nm, sk, price)` as product `pid`. -/
def newProductAuditRow (nm sk : String) (price : Rat) (pid aid t : Nat) :
    ProductsAuditRow :=
  { audit_id := aid, product_id := pid, name := nm, sku := sk,
    unit_price := price, audit_time := t }

/-- The snapshot row appended to `order_items_audit` by trigger
`trg_order_items_audit`. -/
def newOrderItemAuditRow (oid : Nat) (pid : Option Nat) (desc : String)
    (qty price : Rat) (iid aid t : Nat) : OrderItemsAuditRow :=
  { audit_id := aid, item_id := iid, order_id := oid, product_id := pid,
    description := desc, quantity := qty, unit_price := price, audit_time := t }

/-- `INSERT INTO products(name, sku, unit_price) VALUES (?,?,?)` together with
the `AFTER INSERT` trigger `trg_products_audit`, which appends a snapshot row
to `products_audit` in the same transaction. -/
def insertProduct (nm sk : String) (price : Rat) (s : SysState) : SysState :=
  let pid := nextRowId (s.main.products.map (fun p => p.product_id))
  let aid := s.main.products_audit_seq + 1
  { main := { s.main with
      products := s.main.products ++
        [{ product_id := pid, name := nm, sku := sk, unit_price := price,
           is_active := 1, created_at := s.clock }],
      products_audit := s.main.products_audit ++
        [newProductAuditRow nm sk price pid aid s.clock],
      products_audit_seq := aid },
    backup := s.backup,
    clock := s.clock + 1 }

/-- Entity insert with an explicit transaction outcome: on `storageFailure`
the whole transaction (entity row and trigger's audit row) is rolled back. -/
def insertProductRun (o : WriteOutcome) (nm sk : String) (price : Rat)
    (s : SysState) : SysState :=
  match o with
  | .success => insertProduct nm sk price s
  | .storageFailure => s

/-- `INSERT INTO purchase_order_items(order_id, description, quantity, unit_price)`
(or the variant with `product_id`), together with the `AFTER INSERT` trigger
`trg_order_items_audit`. -/
def insertOrderItem (oid : Nat) (pid : Option Nat) (desc : String)
    (qty price : Rat) (s : SysState) : SysState :=
  let iid := nextRowId (s.main.purchase_order_items.map (fun i => i.item_id))
  let aid := s.main.order_items_audit_seq + 1
  { main := { s.main with
      purchase_order_items := s.main.purchase_order_items ++
        [{ item_id := iid, order_id := oid, product_id := pid,
           description := desc, quantity := qty, unit_price := price }],
      order_items_audit := s.main.order_items_audit ++
        [newOrderItemAuditRow oid pid desc qty price iid aid s.clock],
      order_items_audit_seq := aid },
    backup := s.backup,
    clock := s.clock + 1 }

/-- Order-item insert with an explicit transaction outcome (as for products). -/
def insertOrderItemRun (o : WriteOutcome) (oid : Nat) (pid : Option Nat)
    (desc : String) (qty price : Rat) (s : SysState) : SysState :=
  match o with
  | .success => insertOrderItem oid pid desc qty price s
  | .storageFailure => s

/-- `INSERT INTO suppliers(name, contact_name, phone, email, address, city, state, country)`.
No trigger is attached to `suppliers`. -/
def insertSupplier (nm contact phone email addr city st country : String)
    (s : SysState) : SysState :=
  let sid := nextRowId (s.main.suppliers.map (fun r => r.supplier_id))
  { main := { s.main with
      suppliers := s.main.suppliers ++
        [{ supplier_id := sid, name := nm, contact_name := contact,
           phone := phone, email := email, address := addr, city := city,
           state := st, country := country, is_active := 1,
           created_at := s.clock }] },
    backup := s.backup,
    clock := s.clock + 1 }

/-- `INSERT INTO purchase_orders(supplier_id, status, notes)` (status defaults
to `DRAFT` in the `/add_order` route).  No trigger is attached. -/
def insertPurchaseOrder (sid : Nat) (status : String) (notes : Option String)
    (s : SysState) : SysState :=
  let oid := nextRowId (s.main.purchase_orders.map (fun r => r.order_id))
  { main := { s.main with
      purchase_orders := s.main.purchase_orders ++
        [{ order_id := oid, supplier_id := sid, order_date := s.clock,
           status := status, notes := notes }] },
    backup := s.backup,
    clock := s.clock + 1 }

/-- `UPDATE suppliers SET is_active = 0 WHERE supplier_id=?`
(route `supplier_deactivate`). -/
def supplierDeactivate (sid : Nat) (s : SysState) : SysState :=
  { main := { s.main with
      suppliers := s.main.suppliers.map (fun r =>
        if r.supplier_id = sid then { r with is_active := 0 } else r) },
    backup := s.backup,
    clock := s.clock + 1 }

/-- How far one replication pass got.  The Python routines run the whole
per-row loop of `INSERT`s first, then `conn.commit()` (main DB, i.e. the
ledger marks), then `bconn.commit()` (backup DB):

* `success`: loop, both commits;
* `failAtRow k`: the backup-store `INSERT` for the k-th pending row raised;
  the exception propagates before either commit, so both open transactions
  are rolled back when the connections are discarded;
* `readFailure`: the pending-set `SELECT` raised; no write was ever executed;
* `stopBeforeMainCommit`: the process stopped after the loop but before
  `conn.commit()`; both transactions roll back;
* `stopBetweenCommits`: the process stopped after `conn.commit()` but before
  `bconn.commit()`; the ledger marks are durable, the backup rows are lost. -/
inductive PassOutcome where
  | success
  | failAtRow (k : Nat)
  | readFailure
  | stopBeforeMainCommit
  | stopBetweenCommits
deriving DecidableEq

/-- Pending set of `replicate_product_to_backup`:
`SELECT * FROM products_audit WHERE audit_id NOT IN (SELECT audit_id FROM products_backup_ids)`. -/
def pendingProducts (m : MainDB) : List ProductsAuditRow :=
  m.products_audit.filter (fun r => !(m.products_backup_ids.contains r.audit_id))

/-- Pending set of `replicate_order_item_to_backup`. -/
def pendingOrderItems (m : MainDB) : List OrderItemsAuditRow :=
  m.order_items_audit.filter (fun r => !(m.order_items_backup_ids.contains r.audit_id))

/-- One row of `products_backup` as written by
`INSERT INTO products_backup(product_id, name, sku, unit_price)` for the
pending audit row `r`: the snapshot fields are copied, `backup_id` is
assigned by `AUTOINCREMENT` and `backed_up_at` defaults to the current time. -/
def mkProductBackupRow (r : ProductsAuditRow) (bid t : Nat) : ProductsBackupRow :=
  { backup_id := bid, product_id := r.product_id, name := r.name,
    sku := r.sku, unit_price := r.unit_price, backed_up_at := t,
    src_audit_id := r.audit_id }

/-- One row of `order_items_backup` as written by the per-row `INSERT` of
`replicate_order_item_to_backup` for the pending audit row `r`. -/
def mkOrderItemBackupRow (r : OrderItemsAuditRow) (bid t : Nat) : OrderItemsBackupRow :=
  { backup_id := bid, item_id := r.item_id, order_id := r.order_id,
    product_id := r.product_id, description := r.description,
    quantity := r.quantity, unit_price := r.unit_price, backed_up_at := t,
    src_audit_id := r.audit_id }

/-- Backup rows built by the per-row loop of `replicate_product_to_backup`:
each pending audit row is copied field by field into `products_backup`, whose
`AUTOINCREMENT` key assigns consecutive `backup_id`s after `seq`; all rows of
the pass are stamped with the pass's time `t`. -/
def mkProductsBackup : List ProductsAuditRow → Nat → Nat → List ProductsBackupRow
  | [], _, _ => []
  | r :: rs, seq, t => mkProductBackupRow r (seq + 1) t :: mkProductsBackup rs (seq + 1) t

/-- Backup rows built by the per-row loop of `replicate_order_item_to_backup`. -/
def mkOrderItemsBackup : List OrderItemsAuditRow → Nat → Nat → List OrderItemsBackupRow
  | [], _, _ => []
  | r :: rs, seq, t => mkOrderItemBackupRow r (seq + 1) t :: mkOrderItemsBackup rs (seq + 1) t

/-- `replicate_product_to_backup` with an explicit pass outcome.

The loop executes, for each pending row in order, an `INSERT` into
`products_backup` on the backup connection and an `INSERT` of the `audit_id`
into `products_backup_ids` on the main connection; both sit in open
transactions until `conn.commit()` (main first) and `bconn.commit()` run at
the end.  `executed` is the prefix of the pending set the loop processed
before the outcome's interruption point; outcomes that reach neither commit
leave both stores exactly as they were (rollback on close). -/
def replicateProducts (o : PassOutcome) (s : SysState) : SysState :=
  let pend := pendingProducts s.main
  let executed : List ProductsAuditRow :=
    match o with
    | .failAtRow k => pend.take k
    | .readFailure => []
    | _ => pend
  let mainCommitted : MainDB :=
    { s.main with products_backup_ids :=
        s.main.products_backup_ids ++ executed.map (fun r => r.audit_id) }
  let backupCommitted : BackupDB :=
    { s.backup with
        products_backup := s.backup.products_backup ++
          mkProductsBackup executed s.backup.products_backup_seq s.clock,
        products_backup_seq := s.backup.products_backup_seq + executed.length }
  match o with
  | .success =>
      { main := mainCommitted, backup := backupCommitted, clock := s.clock + 1 }
  | .stopBetweenCommits =>
      { main := mainCommitted, backup := s.backup, clock := s.clock + 1 }
  | .failAtRow _ => s
  | .readFailure => s
  | .stopBeforeMainCommit => s

/-- `replicate_order_item_to_backup` with an explicit pass outcome;
structurally identical to `replicateProducts`. -/
def replicateOrderItems (o : PassOutcome) (s : SysState) : SysState :=
  let pend := pendingOrderItems s.main
  let executed : List OrderItemsAuditRow :=
    match o with
    | .failAtRow k => pend.take k
    | .readFailure => []
    | _ => pend
  let mainCommitted : MainDB :=
    { s.main with order_items_backup_ids :=
        s.main.order_items_backup_ids ++ executed.map (fun r => r.audit_id) }
  let backupCommitted : BackupDB :=
    { s.backup with
        order_items_backup := s.backup.order_items_backup ++
          mkOrderItemsBackup executed s.backup.order_items_backup_seq s.clock,
        order_items_backup_seq := s.backup.order_items_backup_seq + executed.length }
  match o with
  | .success =>
      { main := mainCommitted, backup := backupCommitted, clock := s.clock + 1 }
  | .stopBetweenCommits =>
      { main := mainCommitted, backup := s.backup, clock := s.clock + 1 }
  | .failAtRow _ => s
  | .readFailure => s
  | .stopBeforeMainCommit => s

/-- First block of `seed_demo`: the eight `DELETE FROM` statements followed by
`conn.commit()`.  Note that the dedup ledger tables are wiped but the backup
database is untouched, and the `sqlite_sequence` counters of the audit tables
survive the deletes. -/
def seedWipe (s : SysState) : SysState :=
  { main := { s.main with
      suppliers := [], products := [], purchase_orders := [],
      purchase_order_items := [], products_audit := [],
      order_items_audit := [], products_backup_ids := [],
      order_items_backup_ids := [] },
    backup := s.backup,
    clock := s.clock + 1 }

/-- `seed_demo`: wipe, insert the demo suppliers, products, one purchase
order (capturing `last_insert_rowid()` as `order_id`) and its three items,
then run both replication routines (whose outcomes are parameters, since the
routines themselves may be interrupted). -/
def seed_demo (o1 o2 : PassOutcome) (s : SysState) : SysState :=
  let s0 := seedWipe s
  let s1 := insertSupplier "Alpha Tech Suppliers" "Kiran Kumar" "9876543210"
    "alpha.tech.suppliers@gmail.com" "23 Electronics Street, Industrial Layout"
    "Bengaluru" "KA" "India" s0
  let s2 := insertSupplier "Southern Electronics" "Priya R" "9753186420"
    "contact@southern-electro.in" "48 Anna Salai, Opp Metro Pillar 12"
    "Chennai" "TN" "India" s1
  let s3 := insertSupplier "Kerala Industrial Co." "Anand Pillai" "8899001122"
    "info@kico.co.in" "12/88 MG Road, Marine Drive" "Kochi" "KL" "India" s2
  let s4 := insertProduct "3-Pin Power Cable" "PC-3PIN-IND" 160 s3
  let s5 := insertProduct "Industrial Soldering Iron 40W" "SLD-IRON-40W" 680 s4
  let s6 := insertProduct "Raspberry Pi 4B (4GB RAM)" "RPI4-4GB" 5200 s5
  let s7 := insertProduct "12V SMPS Adapter" "SMPS-12V-2A" 450 s6
  let s8 := insertProduct "CCTV Camera 2MP HD" "CCTV-2MP-HD" 1790 s7
  let oid := nextRowId (s8.main.purchase_orders.map (fun r => r.order_id))
  let s9 := insertPurchaseOrder 1 "PLACED" (some "Urgent requirement for IoT Lab.") s8
  let s10 := insertOrderItem oid none "Raspberry Pi 4B (4GB RAM)" 3 5200 s9
  let s11 := insertOrderItem oid none "CCTV Camera 2MP HD" 5 1790 s10
  let s12 := insertOrderItem oid none "3-Pin Power Cable" 10 160 s11
  replicateOrderItems o2 (replicateProducts o1 s12)

/-- Descending insertion of `a` into a list already sorted descending by `key`. -/
def insertDescBy {α : Type} (key : α → Nat) (a : α) : List α → List α
  | [] => [a]
  | b :: bs => if key b ≤ key a then a :: b :: bs else b :: insertDescBy key a bs

/-- Sort a list descending by `key` (models SQL `ORDER BY key DESC`). -/
def sortDescBy {α : Type} (key : α → Nat) (l : List α) : List α :=
  l.foldr (insertDescBy key) []

/-- `SELECT * FROM products_backup ORDER BY backup_id DESC` (route `/backup`). -/
def backupViewerProducts (b : BackupDB) : List ProductsBackupRow :=
  sortDescBy (fun r => r.backup_id) b.products_backup

/-- `SELECT * FROM order_items_backup ORDER BY backup_id DESC` (route `/backup`). -/
def backupViewerOrderItems (b : BackupDB) : List OrderItemsBackupRow :=
  sortDescBy (fun r => r.backup_id) b.order_items_backup

/-- States reachable from the empty stores by any sequence of system
operations, replication passes taken with **any** outcome (interrupted
executions included). -/
inductive Reach : SysState → Prop
  | init : Reach initState
  | insSupplier (nm contact phone email addr city st country : String)
      {s : SysState} : Reach s →
      Reach (insertSupplier nm contact phone email addr city st country s)
  | insProduct (nm sk : String) (price : Rat) {s : SysState} : Reach s →
      Reach (insertProduct nm sk price s)
  | insOrder (sid : Nat) (status : String) (notes : Option String)
      {s : SysState} : Reach s → Reach (insertPurchaseOrder sid status notes s)
  | insItem (oid : Nat) (pid : Option Nat) (desc : String) (qty price : Rat)
      {s : SysState} : Reach s → Reach (insertOrderItem oid pid desc qty price s)
  | deactivate (sid : Nat) {s : SysState} : Reach s →
      Reach (supplierDeactivate sid s)
  | repProducts (o : PassOutcome) {s : SysState} : Reach s →
      Reach (replicateProducts o s)
  | repItems (o : PassOutcome) {s : SysState} : Reach s →
      Reach (replicateOrderItems o s)
  | wipe {s : SysState} : Reach s → Reach (seedWipe s)

/-- States reachable when every replication pass runs to completion
(`PassOutcome.success`): the crash-free executions. -/
inductive ReachOK : SysState → Prop
  | init : ReachOK initState
  | insSupplier (nm contact phone email addr city st country : String)
      {s : SysState} : ReachOK s →
      ReachOK (insertSupplier nm contact phone email addr city st country s)
  | insProduct (nm sk : String) (price : Rat) {s : SysState} : ReachOK s →
      ReachOK (insertProduct nm sk price s)
  | insOrder (sid : Nat) (status : String) (notes : Option String)
      {s : SysState} : ReachOK s → ReachOK (insertPurchaseOrder sid status notes s)
  | insItem (oid : Nat) (pid : Option Nat) (desc : String) (qty price : Rat)
      {s : SysState} : ReachOK s → ReachOK (insertOrderItem oid pid desc qty price s)
  | deactivate (sid : Nat) {s : SysState} : ReachOK s →
      ReachOK (supplierDeactivate sid s)
  | repProducts {s : SysState} : ReachOK s →
      ReachOK (replicateProducts .success s)
  | repItems {s : SysState} : ReachOK s →
      ReachOK (replicateOrderItems .success s)
  | wipe {s : SysState} : ReachOK s → ReachOK (seedWipe s)


/-- A concrete state used by witnesses and counterexamples: one product
"Widget" inserted into fresh stores (its audit row has `audit_id = 1`). -/
def sIns : SysState := insertProduct "Widget" "W-1" 10 initState

/-- `sIns` followed by a replication pass that runs to completion. -/
def okState : SysState := replicateProducts .success sIns

/-- `sIns` followed by a replication pass stopped between `conn.commit()` and
`bconn.commit()`: the ledger mark for `audit_id = 1` is durable but the
backup row is rolled back. -/
def crashedState : SysState := replicateProducts .stopBetweenCommits sIns

end SupplierMgmt

namespace SupplierMgmt

/-! ## Basic facts about the per-pass loop output and the pending sets -/

theorem mkProductsBackup_map_src (rows : List ProductsAuditRow) (seq t : Nat) :
    (mkProductsBackup rows seq t).map (fun b => b.src_audit_id) =
      rows.map (fun r => r.audit_id) := by
  induction rows generalizing seq with
  | nil => rfl
  | cons r rs ih => simp [mkProductsBackup, mkProductBackupRow, ih]

theorem mkProductsBackup_length (rows : List ProductsAuditRow) (seq t : Nat) :
    (mkProductsBackup rows seq t).length = rows.length := by
  induction rows generalizing seq with
  | nil => rfl
  | cons r rs ih => simp [mkProductsBackup, ih]

theorem mem_mkProductsBackup (rows : List ProductsAuditRow) (seq t : Nat) :
    ∀ b ∈ mkProductsBackup rows seq t, ∃ r ∈ rows,
      b.src_audit_id = r.audit_id ∧ b.product_id = r.product_id ∧
      b.name = r.name ∧ b.sku = r.sku ∧ b.unit_price = r.unit_price ∧
      b.backed_up_at = t ∧ seq < b.backup_id ∧ b.backup_id ≤ seq + rows.length := by
  induction rows generalizing seq with
  | nil => intro b hb; simp [mkProductsBackup] at hb
  | cons r rs ih =>
    intro b hb
    simp only [mkProductsBackup, List.mem_cons] at hb
    rcases hb with rfl | hb
    · refine ⟨r, by simp, rfl, rfl, rfl, rfl, rfl, rfl, ?_, ?_⟩
      · show seq < seq + 1
        omega
      · show seq + 1 ≤ seq + (rs.length + 1)
        omega
    · obtain ⟨r', hr', h1, h2, h3, h4, h5, h6, h7, h8⟩ := ih (seq + 1) b hb
      refine ⟨r', by simp [hr'], h1, h2, h3, h4, h5, h6, by omega, ?_⟩
      simp only [List.length_cons]
      omega

theorem mkProductsBackup_covers (rows : List ProductsAuditRow) (seq t : Nat) :
    ∀ r ∈ rows, ∃ b ∈ mkProductsBackup rows seq t,
      b.src_audit_id = r.audit_id ∧ b.product_id = r.product_id ∧
      b.name = r.name ∧ b.sku = r.sku ∧ b.unit_price = r.unit_price := by
  induction rows generalizing seq with
  | nil => intro r hr; simp at hr
  | cons r rs ih =>
    intro a ha
    simp only [List.mem_cons] at ha
    rcases ha with rfl | ha
    · refine ⟨mkProductBackupRow a (seq + 1) t, ?_, rfl, rfl, rfl, rfl, rfl⟩
      simp [mkProductsBackup]
    · obtain ⟨b, hb, h1, h2, h3, h4, h5⟩ := ih (seq + 1) a ha
      exact ⟨b, by simp [mkProductsBackup, hb], h1, h2, h3, h4, h5⟩

theorem mkOrderItemsBackup_map_src (rows : List OrderItemsAuditRow) (seq t : Nat) :
    (mkOrderItemsBackup rows seq t).map (fun b => b.src_audit_id) =
      rows.map (fun r => r.audit_id) := by
  induction rows generalizing seq with
  | nil => rfl
  | cons r rs ih => simp [mkOrderItemsBackup, mkOrderItemBackupRow, ih]

theorem mkOrderItemsBackup_length (rows : List OrderItemsAuditRow) (seq t : Nat) :
    (mkOrderItemsBackup rows seq t).length = rows.length := by
  induction rows generalizing seq with
  | nil => rfl
  | cons r rs ih => simp [mkOrderItemsBackup, ih]

theorem mem_mkOrderItemsBackup (rows : List OrderItemsAuditRow) (seq t : Nat) :
    ∀ b ∈ mkOrderItemsBackup rows seq t, ∃ r ∈ rows,
      b.src_audit_id = r.audit_id ∧ b.item_id = r.item_id ∧
      b.order_id = r.order_id ∧ b.product_id = r.product_id ∧
      b.description = r.description ∧ b.quantity = r.quantity ∧
      b.unit_price = r.unit_price ∧
      b.backed_up_at = t ∧ seq < b.backup_id ∧ b.backup_id ≤ seq + rows.length := by
  induction rows generalizing seq with
  | nil => intro b hb; simp [mkOrderItemsBackup] at hb
  | cons r rs ih =>
    intro b hb
    simp only [mkOrderItemsBackup, List.mem_cons] at hb
    rcases hb with rfl | hb
    · refine ⟨r, by simp, rfl, rfl, rfl, rfl, rfl, rfl, rfl, rfl, ?_, ?_⟩
      · show seq < seq + 1
        omega
      · show seq + 1 ≤ seq + (rs.length + 1)
        omega
    · obtain ⟨r', hr', h1, h2, h3, h4, h5, h6, h7, h8, h9, h10⟩ := ih (seq + 1) b hb
      refine ⟨r', by simp [hr'], h1, h2, h3, h4, h5, h6, h7, h8, by omega, ?_⟩
      simp only [List.length_cons]
      omega

theorem mkOrderItemsBackup_covers (rows : List OrderItemsAuditRow) (seq t : Nat) :
    ∀ r ∈ rows, ∃ b ∈ mkOrderItemsBackup rows seq t,
      b.src_audit_id = r.audit_id ∧ b.item_id = r.item_id ∧
      b.order_id = r.order_id ∧ b.product_id = r.product_id ∧
      b.description = r.description ∧ b.quantity = r.quantity ∧
      b.unit_price = r.unit_price := by
  induction rows generalizing seq with
  | nil => intro r hr; simp at hr
  | cons r rs ih =>
    intro a ha
    simp only [List.mem_cons] at ha
    rcases ha with rfl | ha
    · refine ⟨mkOrderItemBackupRow a (seq + 1) t, ?_, rfl, rfl, rfl, rfl, rfl, rfl, rfl⟩
      simp [mkOrderItemsBackup]
    · obtain ⟨b, hb, h1, h2, h3, h4, h5, h6, h7⟩ := ih (seq + 1) a ha
      exact ⟨b, by simp [mkOrderItemsBackup, hb], h1, h2, h3, h4, h5, h6, h7⟩

theorem mem_pendingProducts {m : MainDB} {r : ProductsAuditRow} :
    r ∈ pendingProducts m ↔
      r ∈ m.products_audit ∧ r.audit_id ∉ m.products_backup_ids := by
  simp [pendingProducts, List.mem_filter]

theorem mem_pendingOrderItems {m : MainDB} {r : OrderItemsAuditRow} :
    r ∈ pendingOrderItems m ↔
      r ∈ m.order_items_audit ∧ r.audit_id ∉ m.order_items_backup_ids := by
  simp [pendingOrderItems, List.mem_filter]

theorem pendingProducts_map_nodup {m : MainDB}
    (h : (m.products_audit.map (fun a => a.audit_id)).Nodup) :
    ((pendingProducts m).map (fun a => a.audit_id)).Nodup :=
  h.sublist ((List.filter_sublist _).map _)

theorem pendingOrderItems_map_nodup {m : MainDB}
    (h : (m.order_items_audit.map (fun a => a.audit_id)).Nodup) :
    ((pendingOrderItems m).map (fun a => a.audit_id)).Nodup :=
  h.sublist ((List.filter_sublist _).map _)

end SupplierMgmt

namespace SupplierMgmt

/-! ## The descending sort used by the backup viewer -/

theorem mem_insertDescBy {α : Type} (key : α → Nat) (a x : α) (l : List α) :
    x ∈ insertDescBy key a l ↔ x = a ∨ x ∈ l := by
  induction l with
  | nil => simp [insertDescBy]
  | cons b bs ih =>
    by_cases h : key b ≤ key a
    · simp [insertDescBy, h]
    · simp [insertDescBy, h, ih]
      tauto

theorem mem_sortDescBy {α : Type} (key : α → Nat) (x : α) (l : List α) :
    x ∈ sortDescBy key l ↔ x ∈ l := by
  induction l with
  | nil => simp [sortDescBy]
  | cons b bs ih =>
    simp only [sortDescBy, List.foldr_cons] at ih ⊢
    rw [mem_insertDescBy, ih, List.mem_cons]

theorem pairwise_insertDescBy {α : Type} (key : α → Nat) (a : α) (l : List α)
    (h : l.Pairwise (fun x y => key y ≤ key x)) :
    (insertDescBy key a l).Pairwise (fun x y => key y ≤ key x) := by
  induction l with
  | nil => simp [insertDescBy]
  | cons b bs ih =>
    rcases List.pairwise_cons.mp h with ⟨hb, hbs⟩
    by_cases hk : key b ≤ key a
    · rw [insertDescBy, if_pos hk]
      refine List.pairwise_cons.mpr ⟨?_, h⟩
      intro y hy
      rcases List.mem_cons.mp hy with rfl | hy
      · exact hk
      · exact le_trans (hb y hy) hk
    · rw [insertDescBy, if_neg hk]
      refine List.pairwise_cons.mpr ⟨?_, ih hbs⟩
      intro y hy
      rcases (mem_insertDescBy key a y bs).mp hy with rfl | hy
      · omega
      · exact hb y hy

theorem pairwise_sortDescBy {α : Type} (key : α → Nat) (l : List α) :
    (sortDescBy key l).Pairwise (fun x y => key y ≤ key x) := by
  induction l with
  | nil => simp [sortDescBy]
  | cons b bs ih => exact pairwise_insertDescBy key b _ ih

/-! ## System invariants

`InvBase` holds in **every** reachable state (interrupted replication passes
included); it is what makes the dedup ledger sound: audit ids are never
reused, and a backup row exists for an un-ledgered live audit row only never.
`InvOK` additionally records that in **crash-free** executions every ledgered
live audit row has exactly one backup copy with matching snapshot fields.
`InvTime` relates `backup_id` order to replication-time order. -/

structure InvBase (s : SysState) : Prop where
  pa_nodup : (s.main.products_audit.map (fun a => a.audit_id)).Nodup
  pa_le : ∀ a ∈ s.main.products_audit, a.audit_id ≤ s.main.products_audit_seq
  pl_le : ∀ i ∈ s.main.products_backup_ids, i ≤ s.main.products_audit_seq
  pb_nodup : (s.backup.products_backup.map (fun b => b.src_audit_id)).Nodup
  pb_le : ∀ b ∈ s.backup.products_backup, b.src_audit_id ≤ s.main.products_audit_seq
  pb_unledgered : ∀ a ∈ s.main.products_audit, a.audit_id ∉ s.main.products_backup_ids →
    ∀ b ∈ s.backup.products_backup, b.src_audit_id ≠ a.audit_id
  oa_nodup : (s.main.order_items_audit.map (fun a => a.audit_id)).Nodup
  oa_le : ∀ a ∈ s.main.order_items_audit, a.audit_id ≤ s.main.order_items_audit_seq
  ol_le : ∀ i ∈ s.main.order_items_backup_ids, i ≤ s.main.order_items_audit_seq
  ob_nodup : (s.backup.order_items_backup.map (fun b => b.src_audit_id)).Nodup
  ob_le : ∀ b ∈ s.backup.order_items_backup, b.src_audit_id ≤ s.main.order_items_audit_seq
  ob_unledgered : ∀ a ∈ s.main.order_items_audit, a.audit_id ∉ s.main.order_items_backup_ids →
    ∀ b ∈ s.backup.order_items_backup, b.src_audit_id ≠ a.audit_id

structure InvOK (s : SysState) : Prop where
  pa_ledgered : ∀ a ∈ s.main.products_audit, a.audit_id ∈ s.main.products_backup_ids →
    ∃ b ∈ s.backup.products_backup, b.src_audit_id = a.audit_id ∧
      b.product_id = a.product_id ∧ b.name = a.name ∧ b.sku = a.sku ∧
      b.unit_price = a.unit_price
  oa_ledgered : ∀ a ∈ s.main.order_items_audit, a.audit_id ∈ s.main.order_items_backup_ids →
    ∃ b ∈ s.backup.order_items_backup, b.src_audit_id = a.audit_id ∧
      b.item_id = a.item_id ∧ b.order_id = a.order_id ∧
      b.product_id = a.product_id ∧ b.description = a.description ∧
      b.quantity = a.quantity ∧ b.unit_price = a.unit_price

structure InvTime (s : SysState) : Prop where
  pb_id_le : ∀ b ∈ s.backup.products_backup, b.backup_id ≤ s.backup.products_backup_seq
  pb_t_le : ∀ b ∈ s.backup.products_backup, b.backed_up_at ≤ s.clock
  pb_mono : ∀ x ∈ s.backup.products_backup, ∀ y ∈ s.backup.products_backup,
    x.backup_id ≤ y.backup_id → x.backed_up_at ≤ y.backed_up_at
  ob_id_le : ∀ b ∈ s.backup.order_items_backup, b.backup_id ≤ s.backup.order_items_backup_seq
  ob_t_le : ∀ b ∈ s.backup.order_items_backup, b.backed_up_at ≤ s.clock
  ob_mono : ∀ x ∈ s.backup.order_items_backup, ∀ y ∈ s.backup.order_items_backup,
    x.backup_id ≤ y.backup_id → x.backed_up_at ≤ y.backed_up_at

end SupplierMgmt

namespace SupplierMgmt

/-! ## Projection lemmas for the replication passes -/

@[simp] theorem replicateProducts_failAtRow (k : Nat) (s : SysState) :
    replicateProducts (.failAtRow k) s = s := rfl

@[simp] theorem replicateProducts_readFailure (s : SysState) :
    replicateProducts .readFailure s = s := rfl

@[simp] theorem replicateProducts_stopBeforeMainCommit (s : SysState) :
    replicateProducts .stopBeforeMainCommit s = s := rfl

@[simp] theorem replicateOrderItems_failAtRow (k : Nat) (s : SysState) :
    replicateOrderItems (.failAtRow k) s = s := rfl

@[simp] theorem replicateOrderItems_readFailure (s : SysState) :
    replicateOrderItems .readFailure s = s := rfl

@[simp] theorem replicateOrderItems_stopBeforeMainCommit (s : SysState) :
    replicateOrderItems .stopBeforeMainCommit s = s := rfl

theorem replicateProducts_success_main (s : SysState) :
    (replicateProducts .success s).main =
      { s.main with products_backup_ids := s.main.products_backup_ids ++
          (pendingProducts s.main).map (fun r => r.audit_id) } := rfl

theorem replicateProducts_success_backup (s : SysState) :
    (replicateProducts .success s).backup =
      { s.backup with
          products_backup := s.backup.products_backup ++
            mkProductsBackup (pendingProducts s.main) s.backup.products_backup_seq s.clock,
          products_backup_seq := s.backup.products_backup_seq +
            (pendingProducts s.main).length } := rfl

theorem replicateProducts_betweenCommits_main (s : SysState) :
    (replicateProducts .stopBetweenCommits s).main =
      { s.main with products_backup_ids := s.main.products_backup_ids ++
          (pendingProducts s.main).map (fun r => r.audit_id) } := rfl

theorem replicateProducts_betweenCommits_backup (s : SysState) :
    (replicateProducts .stopBetweenCommits s).backup = s.backup := rfl

theorem replicateOrderItems_success_main (s : SysState) :
    (replicateOrderItems .success s).main =
      { s.main with order_items_backup_ids := s.main.order_items_backup_ids ++
          (pendingOrderItems s.main).map (fun r => r.audit_id) } := rfl

theorem replicateOrderItems_success_backup (s : SysState) :
    (replicateOrderItems .success s).backup =
      { s.backup with
          order_items_backup := s.backup.order_items_backup ++
            mkOrderItemsBackup (pendingOrderItems s.main) s.backup.order_items_backup_seq s.clock,
          order_items_backup_seq := s.backup.order_items_backup_seq +
            (pendingOrderItems s.main).length } := rfl

theorem replicateOrderItems_betweenCommits_main (s : SysState) :
    (replicateOrderItems .stopBetweenCommits s).main =
      { s.main with order_items_backup_ids := s.main.order_items_backup_ids ++
          (pendingOrderItems s.main).map (fun r => r.audit_id) } := rfl

theorem replicateOrderItems_betweenCommits_backup (s : SysState) :
    (replicateOrderItems .stopBetweenCommits s).backup = s.backup := rfl

/-! ## Preservation of `InvBase` -/

theorem invBase_init : InvBase initState := by
  constructor <;> simp [initState]

theorem invBase_insertSupplier (nm contact phone email addr city st country : String)
    {s : SysState} (h : InvBase s) :
    InvBase (insertSupplier nm contact phone email addr city st country s) :=
  ⟨h.pa_nodup, h.pa_le, h.pl_le, h.pb_nodup, h.pb_le, h.pb_unledgered,
   h.oa_nodup, h.oa_le, h.ol_le, h.ob_nodup, h.ob_le, h.ob_unledgered⟩

theorem invBase_insertPurchaseOrder (sid : Nat) (status : String)
    (notes : Option String) {s : SysState} (h : InvBase s) :
    InvBase (insertPurchaseOrder sid status notes s) :=
  ⟨h.pa_nodup, h.pa_le, h.pl_le, h.pb_nodup, h.pb_le, h.pb_unledgered,
   h.oa_nodup, h.oa_le, h.ol_le, h.ob_nodup, h.ob_le, h.ob_unledgered⟩

theorem invBase_supplierDeactivate (sid : Nat) {s : SysState} (h : InvBase s) :
    InvBase (supplierDeactivate sid s) :=
  ⟨h.pa_nodup, h.pa_le, h.pl_le, h.pb_nodup, h.pb_le, h.pb_unledgered,
   h.oa_nodup, h.oa_le, h.ol_le, h.ob_nodup, h.ob_le, h.ob_unledgered⟩

theorem invBase_seedWipe {s : SysState} (h : InvBase s) :
    InvBase (seedWipe s) := by
  refine ⟨by simp [seedWipe], by simp [seedWipe], by simp [seedWipe],
    h.pb_nodup, h.pb_le, by simp [seedWipe],
    by simp [seedWipe], by simp [seedWipe], by simp [seedWipe],
    h.ob_nodup, h.ob_le, by simp [seedWipe]⟩

end SupplierMgmt

namespace SupplierMgmt

@[simp] theorem newProductAuditRow_audit_id (nm sk : String) (price : Rat)
    (pid aid t : Nat) : (newProductAuditRow nm sk price pid aid t).audit_id = aid := rfl

@[simp] theorem newOrderItemAuditRow_audit_id (oid : Nat) (pid : Option Nat)
    (desc : String) (qty price : Rat) (iid aid t : Nat) :
    (newOrderItemAuditRow oid pid desc qty price iid aid t).audit_id = aid := rfl

@[simp] theorem insertProduct_products_audit (nm sk : String) (price : Rat)
    (s : SysState) :
    (insertProduct nm sk price s).main.products_audit =
      s.main.products_audit ++
        [newProductAuditRow nm sk price
          (nextRowId (s.main.products.map (fun p => p.product_id)))
          (s.main.products_audit_seq + 1) s.clock] := rfl

@[simp] theorem insertProduct_products_audit_seq (nm sk : String) (price : Rat)
    (s : SysState) :
    (insertProduct nm sk price s).main.products_audit_seq =
      s.main.products_audit_seq + 1 := rfl

@[simp] theorem insertProduct_products_backup_ids (nm sk : String) (price : Rat)
    (s : SysState) :
    (insertProduct nm sk price s).main.products_backup_ids =
      s.main.products_backup_ids := rfl

@[simp] theorem insertProduct_order_items_audit (nm sk : String) (price : Rat)
    (s : SysState) :
    (insertProduct nm sk price s).main.order_items_audit =
      s.main.order_items_audit := rfl

@[simp] theorem insertProduct_order_items_backup_ids (nm sk : String) (price : Rat)
    (s : SysState) :
    (insertProduct nm sk price s).main.order_items_backup_ids =
      s.main.order_items_backup_ids := rfl

@[simp] theorem insertProduct_order_items_audit_seq (nm sk : String) (price : Rat)
    (s : SysState) :
    (insertProduct nm sk price s).main.order_items_audit_seq =
      s.main.order_items_audit_seq := rfl

@[simp] theorem insertProduct_backup (nm sk : String) (price : Rat)
    (s : SysState) : (insertProduct nm sk price s).backup = s.backup := rfl

@[simp] theorem insertProduct_clock (nm sk : String) (price : Rat)
    (s : SysState) : (insertProduct nm sk price s).clock = s.clock + 1 := rfl

@[simp] theorem insertOrderItem_order_items_audit (oid : Nat) (pid : Option Nat)
    (desc : String) (qty price : Rat) (s : SysState) :
    (insertOrderItem oid pid desc qty price s).main.order_items_audit =
      s.main.order_items_audit ++
        [newOrderItemAuditRow oid pid desc qty price
          (nextRowId (s.main.purchase_order_items.map (fun i => i.item_id)))
          (s.main.order_items_audit_seq + 1) s.clock] := rfl

@[simp] theorem insertOrderItem_order_items_audit_seq (oid : Nat) (pid : Option Nat)
    (desc : String) (qty price : Rat) (s : SysState) :
    (insertOrderItem oid pid desc qty price s).main.order_items_audit_seq =
      s.main.order_items_audit_seq + 1 := rfl

@[simp] theorem insertOrderItem_order_items_backup_ids (oid : Nat) (pid : Option Nat)
    (desc : String) (qty price : Rat) (s : SysState) :
    (insertOrderItem oid pid desc qty price s).main.order_items_backup_ids =
      s.main.order_items_backup_ids := rfl

@[simp] theorem insertOrderItem_products_audit (oid : Nat) (pid : Option Nat)
    (desc : String) (qty price : Rat) (s : SysState) :
    (insertOrderItem oid pid desc qty price s).main.products_audit =
      s.main.products_audit := rfl

@[simp] theorem insertOrderItem_products_backup_ids (oid : Nat) (pid : Option Nat)
    (desc : String) (qty price : Rat) (s : SysState) :
    (insertOrderItem oid pid desc qty price s).main.products_backup_ids =
      s.main.products_backup_ids := rfl

@[simp] theorem insertOrderItem_products_audit_seq (oid : Nat) (pid : Option Nat)
    (desc : String) (qty price : Rat) (s : SysState) :
    (insertOrderItem oid pid desc qty price s).main.products_audit_seq =
      s.main.products_audit_seq := rfl

@[simp] theorem insertOrderItem_backup (oid : Nat) (pid : Option Nat)
    (desc : String) (qty price : Rat) (s : SysState) :
    (insertOrderItem oid pid desc qty price s).backup = s.backup := rfl

@[simp] theorem insertOrderItem_clock (oid : Nat) (pid : Option Nat)
    (desc : String) (qty price : Rat) (s : SysState) :
    (insertOrderItem oid pid desc qty price s).clock = s.clock + 1 := rfl

theorem invBase_insertProduct (nm sk : String) (price : Rat) {s : SysState}
    (h : InvBase s) : InvBase (insertProduct nm sk price s) := by
  refine ⟨?_, ?_, ?_, h.pb_nodup, ?_, ?_,
    h.oa_nodup, h.oa_le, h.ol_le, h.ob_nodup, h.ob_le, h.ob_unledgered⟩
  · simp only [insertProduct_products_audit, List.map_append, List.nodup_append]
    refine ⟨h.pa_nodup, by simp, ?_⟩
    intro x hx hx'
    simp only [List.map_cons, List.map_nil, List.mem_cons, List.not_mem_nil,
      or_false, newProductAuditRow_audit_id] at hx'
    obtain ⟨a, ha, rfl⟩ := List.mem_map.mp hx
    have := h.pa_le a ha
    omega
  · intro a ha
    simp only [insertProduct_products_audit, insertProduct_products_audit_seq] at ha ⊢
    rcases List.mem_append.mp ha with ha | ha
    · exact Nat.le_succ_of_le (h.pa_le a ha)
    · simp only [List.mem_cons, List.not_mem_nil, or_false] at ha
      subst ha
      simp
  · intro i hi
    simp only [insertProduct_products_backup_ids] at hi
    exact Nat.le_succ_of_le (h.pl_le i hi)
  · intro b hb
    simp only [insertProduct_backup] at hb
    exact Nat.le_succ_of_le (h.pb_le b hb)
  · intro a ha hna b hb
    simp only [insertProduct_products_audit] at ha
    simp only [insertProduct_products_backup_ids] at hna
    simp only [insertProduct_backup] at hb
    rcases List.mem_append.mp ha with ha | ha
    · exact h.pb_unledgered a ha hna b hb
    · simp only [List.mem_cons, List.not_mem_nil, or_false] at ha
      subst ha
      have := h.pb_le b hb
      simp only [newProductAuditRow_audit_id]
      omega

theorem invBase_insertOrderItem (oid : Nat) (pid : Option Nat) (desc : String)
    (qty price : Rat) {s : SysState} (h : InvBase s) :
    InvBase (insertOrderItem oid pid desc qty price s) := by
  refine ⟨h.pa_nodup, h.pa_le, h.pl_le, h.pb_nodup, h.pb_le, h.pb_unledgered,
    ?_, ?_, ?_, h.ob_nodup, ?_, ?_⟩
  · simp only [insertOrderItem_order_items_audit, List.map_append, List.nodup_append]
    refine ⟨h.oa_nodup, by simp, ?_⟩
    intro x hx hx'
    simp only [List.map_cons, List.map_nil, List.mem_cons, List.not_mem_nil,
      or_false, newOrderItemAuditRow_audit_id] at hx'
    obtain ⟨a, ha, rfl⟩ := List.mem_map.mp hx
    have := h.oa_le a ha
    omega
  · intro a ha
    simp only [insertOrderItem_order_items_audit,
      insertOrderItem_order_items_audit_seq] at ha ⊢
    rcases List.mem_append.mp ha with ha | ha
    · exact Nat.le_succ_of_le (h.oa_le a ha)
    · simp only [List.mem_cons, List.not_mem_nil, or_false] at ha
      subst ha
      simp
  · intro i hi
    simp only [insertOrderItem_order_items_backup_ids] at hi
    exact Nat.le_succ_of_le (h.ol_le i hi)
  · intro b hb
    simp only [insertOrderItem_backup] at hb
    exact Nat.le_succ_of_le (h.ob_le b hb)
  · intro a ha hna b hb
    simp only [insertOrderItem_order_items_audit] at ha
    simp only [insertOrderItem_order_items_backup_ids] at hna
    simp only [insertOrderItem_backup] at hb
    rcases List.mem_append.mp ha with ha | ha
    · exact h.ob_unledgered a ha hna b hb
    · simp only [List.mem_cons, List.not_mem_nil, or_false] at ha
      subst ha
      have := h.ob_le b hb
      simp only [newOrderItemAuditRow_audit_id]
      omega

end SupplierMgmt

namespace SupplierMgmt

theorem invBase_replicateProducts (o : PassOutcome) {s : SysState}
    (h : InvBase s) : InvBase (replicateProducts o s) := by
  have hpend_sub : ∀ r ∈ pendingProducts s.main,
      r ∈ s.main.products_audit ∧ r.audit_id ∉ s.main.products_backup_ids :=
    fun r hr => mem_pendingProducts.mp hr
  have hledger : ∀ i ∈ s.main.products_backup_ids ++
      (pendingProducts s.main).map (fun r => r.audit_id),
      i ≤ s.main.products_audit_seq := by
    intro i hi
    rcases List.mem_append.mp hi with hi | hi
    · exact h.pl_le i hi
    · obtain ⟨r, hr, rfl⟩ := List.mem_map.mp hi
      exact h.pa_le r (hpend_sub r hr).1
  have hunledg : ∀ a ∈ s.main.products_audit,
      a.audit_id ∉ s.main.products_backup_ids ++
        (pendingProducts s.main).map (fun r => r.audit_id) → False := by
    intro a ha hna
    have hnl : a.audit_id ∉ s.main.products_backup_ids :=
      fun hl => hna (List.mem_append.mpr (Or.inl hl))
    have hp : a ∈ pendingProducts s.main := mem_pendingProducts.mpr ⟨ha, hnl⟩
    exact hna (List.mem_append.mpr (Or.inr (List.mem_map.mpr ⟨a, hp, rfl⟩)))
  cases o with
  | failAtRow k => simpa using h
  | readFailure => simpa using h
  | stopBeforeMainCommit => simpa using h
  | stopBetweenCommits =>
    refine ⟨h.pa_nodup, h.pa_le, ?_, h.pb_nodup, h.pb_le, ?_,
      h.oa_nodup, h.oa_le, h.ol_le, h.ob_nodup, h.ob_le, h.ob_unledgered⟩
    · intro i hi
      exact hledger i hi
    · intro a ha hna b hb
      exact (hunledg a ha hna).elim
  | success =>
    refine ⟨h.pa_nodup, h.pa_le, ?_, ?_, ?_, ?_,
      h.oa_nodup, h.oa_le, h.ol_le, h.ob_nodup, ?_, ?_⟩
    · intro i hi
      exact hledger i hi
    · show ((s.backup.products_backup ++
        mkProductsBackup (pendingProducts s.main) s.backup.products_backup_seq
          s.clock).map (fun b => b.src_audit_id)).Nodup
      rw [List.map_append, mkProductsBackup_map_src, List.nodup_append]
      refine ⟨h.pb_nodup, pendingProducts_map_nodup h.pa_nodup, ?_⟩
      intro x hx hx'
      obtain ⟨b, hb, rfl⟩ := List.mem_map.mp hx
      obtain ⟨r, hr, hid⟩ := List.mem_map.mp hx'
      obtain ⟨hrA, hrL⟩ := hpend_sub r hr
      exact h.pb_unledgered r hrA hrL b hb hid.symm
    · intro b hb
      have hb' : b ∈ s.backup.products_backup ++
          mkProductsBackup (pendingProducts s.main) s.backup.products_backup_seq
            s.clock := hb
      rcases List.mem_append.mp hb' with hb' | hb'
      · exact h.pb_le b hb'
      · obtain ⟨r, hr, h1, _⟩ := mem_mkProductsBackup _ _ _ b hb'
        rw [h1]
        exact h.pa_le r (hpend_sub r hr).1
    · intro a ha hna b hb
      exact (hunledg a ha hna).elim
    · intro b hb
      have hb' : b ∈ s.backup.order_items_backup := hb
      exact h.ob_le b hb'
    · intro a ha hna b hb
      have hb' : b ∈ s.backup.order_items_backup := hb
      exact h.ob_unledgered a ha hna b hb'

theorem invBase_replicateOrderItems (o : PassOutcome) {s : SysState}
    (h : InvBase s) : InvBase (replicateOrderItems o s) := by
  have hpend_sub : ∀ r ∈ pendingOrderItems s.main,
      r ∈ s.main.order_items_audit ∧ r.audit_id ∉ s.main.order_items_backup_ids :=
    fun r hr => mem_pendingOrderItems.mp hr
  have hledger : ∀ i ∈ s.main.order_items_backup_ids ++
      (pendingOrderItems s.main).map (fun r => r.audit_id),
      i ≤ s.main.order_items_audit_seq := by
    intro i hi
    rcases List.mem_append.mp hi with hi | hi
    · exact h.ol_le i hi
    · obtain ⟨r, hr, rfl⟩ := List.mem_map.mp hi
      exact h.oa_le r (hpend_sub r hr).1
  have hunledg : ∀ a ∈ s.main.order_items_audit,
      a.audit_id ∉ s.main.order_items_backup_ids ++
        (pendingOrderItems s.main).map (fun r => r.audit_id) → False := by
    intro a ha hna
    have hnl : a.audit_id ∉ s.main.order_items_backup_ids :=
      fun hl => hna (List.mem_append.mpr (Or.inl hl))
    have hp : a ∈ pendingOrderItems s.main := mem_pendingOrderItems.mpr ⟨ha, hnl⟩
    exact hna (List.mem_append.mpr (Or.inr (List.mem_map.mpr ⟨a, hp, rfl⟩)))
  cases o with
  | failAtRow k => simpa using h
  | readFailure => simpa using h
  | stopBeforeMainCommit => simpa using h
  | stopBetweenCommits =>
    refine ⟨h.pa_nodup, h.pa_le, h.pl_le, h.pb_nodup, h.pb_le, h.pb_unledgered,
      h.oa_nodup, h.oa_le, ?_, h.ob_nodup, h.ob_le, ?_⟩
    · intro i hi
      exact hledger i hi
    · intro a ha hna b hb
      exact (hunledg a ha hna).elim
  | success =>
    refine ⟨h.pa_nodup, h.pa_le, h.pl_le, ?_, ?_, ?_,
      h.oa_nodup, h.oa_le, ?_, ?_, ?_, ?_⟩
    · show ((s.backup.products_backup).map (fun b => b.src_audit_id)).Nodup
      exact h.pb_nodup
    · intro b hb
      have hb' : b ∈ s.backup.products_backup := hb
      exact h.pb_le b hb'
    · intro a ha hna b hb
      have hb' : b ∈ s.backup.products_backup := hb
      exact h.pb_unledgered a ha hna b hb'
    · intro i hi
      exact hledger i hi
    · show ((s.backup.order_items_backup ++
        mkOrderItemsBackup (pendingOrderItems s.main)
          s.backup.order_items_backup_seq s.clock).map
            (fun b => b.src_audit_id)).Nodup
      rw [List.map_append, mkOrderItemsBackup_map_src, List.nodup_append]
      refine ⟨h.ob_nodup, pendingOrderItems_map_nodup h.oa_nodup, ?_⟩
      intro x hx hx'
      obtain ⟨b, hb, rfl⟩ := List.mem_map.mp hx
      obtain ⟨r, hr, hid⟩ := List.mem_map.mp hx'
      obtain ⟨hrA, hrL⟩ := hpend_sub r hr
      exact h.ob_unledgered r hrA hrL b hb hid.symm
    · intro b hb
      have hb' : b ∈ s.backup.order_items_backup ++
          mkOrderItemsBackup (pendingOrderItems s.main)
            s.backup.order_items_backup_seq s.clock := hb
      rcases List.mem_append.mp hb' with hb' | hb'
      · exact h.ob_le b hb'
      · obtain ⟨r, hr, h1, _⟩ := mem_mkOrderItemsBackup _ _ _ b hb'
        rw [h1]
        exact h.oa_le r (hpend_sub r hr).1
    · intro a ha hna b hb
      exact (hunledg a ha hna).elim

/-- `InvBase` holds in every reachable state, interrupted passes included. -/
theorem invBase_of_reach {s : SysState} (h : Reach s) : InvBase s := by
  induction h with
  | init => exact invBase_init
  | insSupplier nm contact phone email addr city st country _ ih =>
    exact invBase_insertSupplier nm contact phone email addr city st country ih
  | insProduct nm sk price _ ih => exact invBase_insertProduct nm sk price ih
  | insOrder sid status notes _ ih =>
    exact invBase_insertPurchaseOrder sid status notes ih
  | insItem oid pid desc qty price _ ih =>
    exact invBase_insertOrderItem oid pid desc qty price ih
  | deactivate sid _ ih => exact invBase_supplierDeactivate sid ih
  | repProducts o _ ih => exact invBase_replicateProducts o ih
  | repItems o _ ih => exact invBase_replicateOrderItems o ih
  | wipe _ ih => exact invBase_seedWipe ih

/-- Every crash-free reachable state is reachable. -/
theorem reach_of_reachOK {s : SysState} (h : ReachOK s) : Reach s := by
  induction h with
  | init => exact Reach.init
  | insSupplier nm contact phone email addr city st country _ ih =>
    exact Reach.insSupplier nm contact phone email addr city st country ih
  | insProduct nm sk price _ ih => exact Reach.insProduct nm sk price ih
  | insOrder sid status notes _ ih => exact Reach.insOrder sid status notes ih
  | insItem oid pid desc qty price _ ih =>
    exact Reach.insItem oid pid desc qty price ih
  | deactivate sid _ ih => exact Reach.deactivate sid ih
  | repProducts _ ih => exact Reach.repProducts .success ih
  | repItems _ ih => exact Reach.repItems .success ih
  | wipe _ ih => exact Reach.wipe ih

end SupplierMgmt

namespace SupplierMgmt

/-! ## Preservation of `InvOK` along crash-free executions -/

theorem invOK_insertProduct (nm sk : String) (price : Rat) {s : SysState}
    (hb : InvBase s) (h : InvOK s) : InvOK (insertProduct nm sk price s) := by
  refine ⟨?_, h.oa_ledgered⟩
  intro a ha hl
  simp only [insertProduct_products_audit] at ha
  simp only [insertProduct_products_backup_ids] at hl
  rcases List.mem_append.mp ha with ha | ha
  · exact h.pa_ledgered a ha hl
  · simp only [List.mem_cons, List.not_mem_nil, or_false] at ha
    subst ha
    have := hb.pl_le _ hl
    simp only [newProductAuditRow_audit_id] at this
    omega

theorem invOK_insertOrderItem (oid : Nat) (pid : Option Nat) (desc : String)
    (qty price : Rat) {s : SysState} (hb : InvBase s) (h : InvOK s) :
    InvOK (insertOrderItem oid pid desc qty price s) := by
  refine ⟨h.pa_ledgered, ?_⟩
  intro a ha hl
  simp only [insertOrderItem_order_items_audit] at ha
  simp only [insertOrderItem_order_items_backup_ids] at hl
  rcases List.mem_append.mp ha with ha | ha
  · exact h.oa_ledgered a ha hl
  · simp only [List.mem_cons, List.not_mem_nil, or_false] at ha
    subst ha
    have := hb.ol_le _ hl
    simp only [newOrderItemAuditRow_audit_id] at this
    omega

theorem invOK_replicateProducts_success {s : SysState}
    (hb : InvBase s) (h : InvOK s) : InvOK (replicateProducts .success s) := by
  refine ⟨?_, ?_⟩
  · intro a ha hl
    have ha' : a ∈ s.main.products_audit := ha
    have hl' : a.audit_id ∈ s.main.products_backup_ids ++
        (pendingProducts s.main).map (fun r => r.audit_id) := hl
    rcases List.mem_append.mp hl' with hl' | hl'
    · obtain ⟨b, hbmem, hfields⟩ := h.pa_ledgered a ha' hl'
      exact ⟨b, List.mem_append.mpr (Or.inl hbmem), hfields⟩
    · obtain ⟨r, hr, hid⟩ := List.mem_map.mp hl'
      have hrA : r ∈ s.main.products_audit := (mem_pendingProducts.mp hr).1
      have hra : r = a := List.inj_on_of_nodup_map hb.pa_nodup hrA ha' hid
      subst hra
      obtain ⟨b, hbmem, hfields⟩ := mkProductsBackup_covers (pendingProducts s.main)
        s.backup.products_backup_seq s.clock r hr
      exact ⟨b, List.mem_append.mpr (Or.inr hbmem), hfields⟩
  · intro a ha hl
    have ha' : a ∈ s.main.order_items_audit := ha
    have hl' : a.audit_id ∈ s.main.order_items_backup_ids := hl
    obtain ⟨b, hbmem, hfields⟩ := h.oa_ledgered a ha' hl'
    exact ⟨b, hbmem, hfields⟩

theorem invOK_replicateOrderItems_success {s : SysState}
    (hb : InvBase s) (h : InvOK s) : InvOK (replicateOrderItems .success s) := by
  refine ⟨?_, ?_⟩
  · intro a ha hl
    have ha' : a ∈ s.main.products_audit := ha
    have hl' : a.audit_id ∈ s.main.products_backup_ids := hl
    obtain ⟨b, hbmem, hfields⟩ := h.pa_ledgered a ha' hl'
    exact ⟨b, hbmem, hfields⟩
  · intro a ha hl
    have ha' : a ∈ s.main.order_items_audit := ha
    have hl' : a.audit_id ∈ s.main.order_items_backup_ids ++
        (pendingOrderItems s.main).map (fun r => r.audit_id) := hl
    rcases List.mem_append.mp hl' with hl' | hl'
    · obtain ⟨b, hbmem, hfields⟩ := h.oa_ledgered a ha' hl'
      exact ⟨b, List.mem_append.mpr (Or.inl hbmem), hfields⟩
    · obtain ⟨r, hr, hid⟩ := List.mem_map.mp hl'
      have hrA : r ∈ s.main.order_items_audit := (mem_pendingOrderItems.mp hr).1
      have hra : r = a := List.inj_on_of_nodup_map hb.oa_nodup hrA ha' hid
      subst hra
      obtain ⟨b, hbmem, hfields⟩ := mkOrderItemsBackup_covers (pendingOrderItems s.main)
        s.backup.order_items_backup_seq s.clock r hr
      exact ⟨b, List.mem_append.mpr (Or.inr hbmem), hfields⟩

/-- In every crash-free reachable state, every ledgered live audit row has a
matching backup row. -/
theorem invOK_of_reachOK {s : SysState} (h : ReachOK s) : InvOK s := by
  induction h with
  | init => exact ⟨by simp [initState], by simp [initState]⟩
  | insSupplier nm contact phone email addr city st country _ ih =>
    exact ⟨ih.pa_ledgered, ih.oa_ledgered⟩
  | insProduct nm sk price hs ih =>
    exact invOK_insertProduct nm sk price (invBase_of_reach (reach_of_reachOK hs)) ih
  | insOrder sid status notes _ ih => exact ⟨ih.pa_ledgered, ih.oa_ledgered⟩
  | insItem oid pid desc qty price hs ih =>
    exact invOK_insertOrderItem oid pid desc qty price
      (invBase_of_reach (reach_of_reachOK hs)) ih
  | deactivate sid _ ih => exact ⟨ih.pa_ledgered, ih.oa_ledgered⟩
  | repProducts hs ih =>
    exact invOK_replicateProducts_success (invBase_of_reach (reach_of_reachOK hs)) ih
  | repItems hs ih =>
    exact invOK_replicateOrderItems_success (invBase_of_reach (reach_of_reachOK hs)) ih
  | wipe _ ih => exact ⟨by simp [seedWipe], by simp [seedWipe]⟩

end SupplierMgmt

namespace SupplierMgmt

/-! ## Preservation of `InvTime` -/

theorem invTime_clock_bump {s s' : SysState} (h : InvTime s)
    (hpb : s'.backup = s.backup) (hc : s'.clock = s.clock + 1) :
    InvTime s' := by
  refine ⟨?_, ?_, ?_, ?_, ?_, ?_⟩
  · intro b hb
    rw [hpb]
    exact h.pb_id_le b (by rw [hpb] at hb; exact hb)
  · intro b hb
    rw [hc]
    exact Nat.le_succ_of_le (h.pb_t_le b (by rw [hpb] at hb; exact hb))
  · intro x hx y hy
    rw [hpb] at hx hy
    exact h.pb_mono x hx y hy
  · intro b hb
    rw [hpb]
    exact h.ob_id_le b (by rw [hpb] at hb; exact hb)
  · intro b hb
    rw [hc]
    exact Nat.le_succ_of_le (h.ob_t_le b (by rw [hpb] at hb; exact hb))
  · intro x hx y hy
    rw [hpb] at hx hy
    exact h.ob_mono x hx y hy

theorem invTime_replicateProducts_success {s : SysState}
    (h : InvTime s) : InvTime (replicateProducts .success s) := by
  refine ⟨?_, ?_, ?_, ?_, ?_, ?_⟩
  · intro b hb
    have hb' : b ∈ s.backup.products_backup ++
        mkProductsBackup (pendingProducts s.main) s.backup.products_backup_seq
          s.clock := hb
    show b.backup_id ≤ s.backup.products_backup_seq + (pendingProducts s.main).length
    rcases List.mem_append.mp hb' with hb' | hb'
    · exact le_trans (h.pb_id_le b hb') (Nat.le_add_right _ _)
    · obtain ⟨r, hr, _, _, _, _, _, _, _, hle⟩ := mem_mkProductsBackup _ _ _ b hb'
      exact hle
  · intro b hb
    have hb' : b ∈ s.backup.products_backup ++
        mkProductsBackup (pendingProducts s.main) s.backup.products_backup_seq
          s.clock := hb
    show b.backed_up_at ≤ s.clock + 1
    rcases List.mem_append.mp hb' with hb' | hb'
    · exact Nat.le_succ_of_le (h.pb_t_le b hb')
    · obtain ⟨r, hr, _, _, _, _, _, ht, _, _⟩ := mem_mkProductsBackup _ _ _ b hb'
      omega
  · intro x hx y hy hxy
    have hx' : x ∈ s.backup.products_backup ++
        mkProductsBackup (pendingProducts s.main) s.backup.products_backup_seq
          s.clock := hx
    have hy' : y ∈ s.backup.products_backup ++
        mkProductsBackup (pendingProducts s.main) s.backup.products_backup_seq
          s.clock := hy
    rcases List.mem_append.mp hx' with hx' | hx' <;>
      rcases List.mem_append.mp hy' with hy' | hy'
    · exact h.pb_mono x hx' y hy' hxy
    · obtain ⟨r, hr, _, _, _, _, _, ht, _, _⟩ := mem_mkProductsBackup _ _ _ y hy'
      rw [ht]
      exact h.pb_t_le x hx'
    · obtain ⟨r, hr, _, _, _, _, _, _, hlt, _⟩ := mem_mkProductsBackup _ _ _ x hx'
      have := h.pb_id_le y hy'
      omega
    · obtain ⟨r, hr, _, _, _, _, _, htx, _, _⟩ := mem_mkProductsBackup _ _ _ x hx'
      obtain ⟨r', hr', _, _, _, _, _, hty, _, _⟩ := mem_mkProductsBackup _ _ _ y hy'
      rw [htx, hty]
  · intro b hb
    have hb' : b ∈ s.backup.order_items_backup := hb
    exact h.ob_id_le b hb'
  · intro b hb
    have hb' : b ∈ s.backup.order_items_backup := hb
    exact Nat.le_succ_of_le (h.ob_t_le b hb')
  · intro x hx y hy
    have hx' : x ∈ s.backup.order_items_backup := hx
    have hy' : y ∈ s.backup.order_items_backup := hy
    exact h.ob_mono x hx' y hy'

theorem invTime_replicateOrderItems_success {s : SysState}
    (h : InvTime s) : InvTime (replicateOrderItems .success s) := by
  refine ⟨?_, ?_, ?_, ?_, ?_, ?_⟩
  · intro b hb
    have hb' : b ∈ s.backup.products_backup := hb
    exact h.pb_id_le b hb'
  · intro b hb
    have hb' : b ∈ s.backup.products_backup := hb
    exact Nat.le_succ_of_le (h.pb_t_le b hb')
  · intro x hx y hy
    have hx' : x ∈ s.backup.products_backup := hx
    have hy' : y ∈ s.backup.products_backup := hy
    exact h.pb_mono x hx' y hy'
  · intro b hb
    have hb' : b ∈ s.backup.order_items_backup ++
        mkOrderItemsBackup (pendingOrderItems s.main)
          s.backup.order_items_backup_seq s.clock := hb
    show b.backup_id ≤ s.backup.order_items_backup_seq + (pendingOrderItems s.main).length
    rcases List.mem_append.mp hb' with hb' | hb'
    · exact le_trans (h.ob_id_le b hb') (Nat.le_add_right _ _)
    · obtain ⟨r, hr, _, _, _, _, _, _, _, _, _, hle⟩ := mem_mkOrderItemsBackup _ _ _ b hb'
      exact hle
  · intro b hb
    have hb' : b ∈ s.backup.order_items_backup ++
        mkOrderItemsBackup (pendingOrderItems s.main)
          s.backup.order_items_backup_seq s.clock := hb
    show b.backed_up_at ≤ s.clock + 1
    rcases List.mem_append.mp hb' with hb' | hb'
    · exact Nat.le_succ_of_le (h.ob_t_le b hb')
    · obtain ⟨r, hr, _, _, _, _, _, _, _, ht, _, _⟩ := mem_mkOrderItemsBackup _ _ _ b hb'
      omega
  · intro x hx y hy hxy
    have hx' : x ∈ s.backup.order_items_backup ++
        mkOrderItemsBackup (pendingOrderItems s.main)
          s.backup.order_items_backup_seq s.clock := hx
    have hy' : y ∈ s.backup.order_items_backup ++
        mkOrderItemsBackup (pendingOrderItems s.main)
          s.backup.order_items_backup_seq s.clock := hy
    rcases List.mem_append.mp hx' with hx' | hx' <;>
      rcases List.mem_append.mp hy' with hy' | hy'
    · exact h.ob_mono x hx' y hy' hxy
    · obtain ⟨r, hr, _, _, _, _, _, _, _, ht, _, _⟩ := mem_mkOrderItemsBackup _ _ _ y hy'
      rw [ht]
      exact h.ob_t_le x hx'
    · obtain ⟨r, hr, _, _, _, _, _, _, _, _, hlt, _⟩ := mem_mkOrderItemsBackup _ _ _ x hx'
      have := h.ob_id_le y hy'
      omega
    · obtain ⟨r, hr, _, _, _, _, _, _, _, htx, _, _⟩ := mem_mkOrderItemsBackup _ _ _ x hx'
      obtain ⟨r', hr', _, _, _, _, _, _, _, hty, _, _⟩ := mem_mkOrderItemsBackup _ _ _ y hy'
      rw [htx, hty]

/-- `InvTime` holds in every reachable state. -/
theorem invTime_of_reach {s : SysState} (h : Reach s) : InvTime s := by
  induction h with
  | init => exact ⟨by simp [initState], by simp [initState], by simp [initState],
      by simp [initState], by simp [initState], by simp [initState]⟩
  | insSupplier nm contact phone email addr city st country _ ih =>
    exact invTime_clock_bump ih rfl rfl
  | insProduct nm sk price _ ih => exact invTime_clock_bump ih rfl rfl
  | insOrder sid status notes _ ih => exact invTime_clock_bump ih rfl rfl
  | insItem oid pid desc qty price _ ih => exact invTime_clock_bump ih rfl rfl
  | deactivate sid _ ih => exact invTime_clock_bump ih rfl rfl
  | repProducts o _ ih =>
    cases o with
    | success => exact invTime_replicateProducts_success ih
    | failAtRow k => simpa using ih
    | readFailure => simpa using ih
    | stopBeforeMainCommit => simpa using ih
    | stopBetweenCommits => exact invTime_clock_bump ih rfl rfl
  | repItems o _ ih =>
    cases o with
    | success => exact invTime_replicateOrderItems_success ih
    | failAtRow k => simpa using ih
    | readFailure => simpa using ih
    | stopBeforeMainCommit => simpa using ih
    | stopBetweenCommits => exact invTime_clock_bump ih rfl rfl
  | wipe _ ih => exact invTime_clock_bump ih rfl rfl

end SupplierMgmt

namespace SupplierMgmt

/-! ## The ledger after a completed pass covers every audit row -/

theorem audit_id_mem_ledger_after_success {s : SysState} :
    ∀ a ∈ s.main.products_audit,
      a.audit_id ∈ s.main.products_backup_ids ++
        (pendingProducts s.main).map (fun r => r.audit_id) := by
  intro a ha
  by_cases hl : a.audit_id ∈ s.main.products_backup_ids
  · exact List.mem_append.mpr (Or.inl hl)
  · exact List.mem_append.mpr
      (Or.inr (List.mem_map.mpr ⟨a, mem_pendingProducts.mpr ⟨ha, hl⟩, rfl⟩))

theorem item_audit_id_mem_ledger_after_success {s : SysState} :
    ∀ a ∈ s.main.order_items_audit,
      a.audit_id ∈ s.main.order_items_backup_ids ++
        (pendingOrderItems s.main).map (fun r => r.audit_id) := by
  intro a ha
  by_cases hl : a.audit_id ∈ s.main.order_items_backup_ids
  · exact List.mem_append.mpr (Or.inl hl)
  · exact List.mem_append.mpr
      (Or.inr (List.mem_map.mpr ⟨a, mem_pendingOrderItems.mpr ⟨ha, hl⟩, rfl⟩))

theorem pendingProducts_after_success (s : SysState) :
    pendingProducts ((replicateProducts .success s).main) = [] := by
  have hcov : ∀ a ∈ s.main.products_audit,
      a.audit_id ∈ (replicateProducts .success s).main.products_backup_ids :=
    fun a ha => audit_id_mem_ledger_after_success a ha
  show s.main.products_audit.filter
    (fun r => !((replicateProducts .success s).main.products_backup_ids.contains
      r.audit_id)) = []
  apply List.filter_eq_nil_iff.mpr
  intro a ha
  intro hcontra
  simp only [Bool.not_eq_true'] at hcontra
  simp at hcontra
  exact hcontra (hcov a ha)

theorem pendingOrderItems_after_success (s : SysState) :
    pendingOrderItems ((replicateOrderItems .success s).main) = [] := by
  have hcov : ∀ a ∈ s.main.order_items_audit,
      a.audit_id ∈ (replicateOrderItems .success s).main.order_items_backup_ids :=
    fun a ha => item_audit_id_mem_ledger_after_success a ha
  show s.main.order_items_audit.filter
    (fun r => !((replicateOrderItems .success s).main.order_items_backup_ids.contains
      r.audit_id)) = []
  apply List.filter_eq_nil_iff.mpr
  intro a ha
  intro hcontra
  simp only [Bool.not_eq_true'] at hcontra
  simp at hcontra
  exact hcontra (hcov a ha)

end SupplierMgmt

namespace SupplierMgmt

/-! ## Claim theorems -/

/-- Claim C1, counterexample: the cross-store invariant "a LedgerEntry exists
iff a corresponding BackupRecord exists" is **not** preserved under partial
failure.  In the reachable state `crashedState` (one product insert, then a
replication pass stopped between `conn.commit()` and `bconn.commit()`), the
ledger contains `audit_id = 1` and the audit row with id 1 is live, yet the
backup store holds no record at all. -/
theorem crash_between_commits_breaks_ledger_backup_iff :
    Reach crashedState ∧
    1 ∈ crashedState.main.products_backup_ids ∧
    (∃ a ∈ crashedState.main.products_audit, a.audit_id = 1) ∧
    crashedState.backup.products_backup = [] :=
  ⟨Reach.repProducts .stopBetweenCommits
      (Reach.insProduct "Widget" "W-1" 10 Reach.init),
    by decide, by decide, by decide⟩

/-- Claim C1 (amended): in every state reachable by crash-free executions
(every replication pass runs both its commits), and for every audit row that
is live in its audit table, the dedup-ledger entry for its `audit_id` exists
iff a backup row copied from that audit row exists in the backup store.  The
unrestricted claim fails: a pass stopped between the two commits leaves a
ledger entry without a backup record (see the counterexample), and
`seed_demo`'s wipe leaves backup rows whose audit rows are deleted. -/
theorem ledger_iff_backup_of_reachOK {s : SysState} (h : ReachOK s) :
    (∀ a ∈ s.main.products_audit,
      (a.audit_id ∈ s.main.products_backup_ids ↔
        ∃ b ∈ s.backup.products_backup, b.src_audit_id = a.audit_id)) ∧
    (∀ a ∈ s.main.order_items_audit,
      (a.audit_id ∈ s.main.order_items_backup_ids ↔
        ∃ b ∈ s.backup.order_items_backup, b.src_audit_id = a.audit_id)) := by
  have hb := invBase_of_reach (reach_of_reachOK h)
  have hok := invOK_of_reachOK h
  constructor
  · intro a ha
    constructor
    · intro hl
      obtain ⟨b, hbm, h1, _⟩ := hok.pa_ledgered a ha hl
      exact ⟨b, hbm, h1⟩
    · rintro ⟨b, hbm, h1⟩
      by_contra hnl
      exact hb.pb_unledgered a ha hnl b hbm h1
  · intro a ha
    constructor
    · intro hl
      obtain ⟨b, hbm, h1, _⟩ := hok.oa_ledgered a ha hl
      exact ⟨b, hbm, h1⟩
    · rintro ⟨b, hbm, h1⟩
      by_contra hnl
      exact hb.ob_unledgered a ha hnl b hbm h1

/-- Claim C1, witness: the amended invariant evaluated at the concrete
crash-free state `okState`. -/
theorem ledger_iff_backup_of_reachOK_witness :
    ReachOK okState ∧
    ((∀ a ∈ okState.main.products_audit,
      (a.audit_id ∈ okState.main.products_backup_ids ↔
        ∃ b ∈ okState.backup.products_backup, b.src_audit_id = a.audit_id)) ∧
    (∀ a ∈ okState.main.order_items_audit,
      (a.audit_id ∈ okState.main.order_items_backup_ids ↔
        ∃ b ∈ okState.backup.order_items_backup, b.src_audit_id = a.audit_id))) :=
  ⟨ReachOK.repProducts (ReachOK.insProduct "Widget" "W-1" 10 ReachOK.init),
    ledger_iff_backup_of_reachOK
      (ReachOK.repProducts (ReachOK.insProduct "Widget" "W-1" 10 ReachOK.init))⟩

/-- Claim C2 (confirmed): replication is idempotent.  For **every** state,
after one completed `ReplicatePending(kind)` pass the pending set of that
kind is empty, so a second completed pass with no intervening inserts adds
zero backup records (for both kinds). -/
theorem replicate_twice_second_pass_adds_nothing (s : SysState) :
    pendingProducts ((replicateProducts .success s).main) = [] ∧
    pendingOrderItems ((replicateOrderItems .success s).main) = [] ∧
    (replicateProducts .success (replicateProducts .success s)).backup.products_backup =
      (replicateProducts .success s).backup.products_backup ∧
    (replicateOrderItems .success (replicateOrderItems .success s)).backup.order_items_backup =
      (replicateOrderItems .success s).backup.order_items_backup := by
  refine ⟨pendingProducts_after_success s, pendingOrderItems_after_success s, ?_, ?_⟩
  · show (replicateProducts .success s).backup.products_backup ++
        mkProductsBackup (pendingProducts ((replicateProducts .success s).main))
          ((replicateProducts .success s).backup.products_backup_seq)
          ((replicateProducts .success s).clock) =
      (replicateProducts .success s).backup.products_backup
    rw [pendingProducts_after_success s]
    simp [mkProductsBackup]
  · show (replicateOrderItems .success s).backup.order_items_backup ++
        mkOrderItemsBackup (pendingOrderItems ((replicateOrderItems .success s).main))
          ((replicateOrderItems .success s).backup.order_items_backup_seq)
          ((replicateOrderItems .success s).clock) =
      (replicateOrderItems .success s).backup.order_items_backup
    rw [pendingOrderItems_after_success s]
    simp [mkOrderItemsBackup]

end SupplierMgmt

namespace SupplierMgmt

/-- Claim C3, counterexample: completeness fails once a pass has been
interrupted between the two commits.  In the reachable state `crashedState`
the audit row with `audit_id = 1` exists when a subsequent
`replicate_product_to_backup` reads the pending set, the pass completes
successfully, and yet the backup store still contains **no** record at all —
the row was silently lost (its ledger mark survived the crash, its backup
row did not). -/
theorem completeness_fails_after_interrupted_pass :
    Reach crashedState ∧
    (∃ a ∈ crashedState.main.products_audit, a.audit_id = 1) ∧
    (replicateProducts .success crashedState).backup.products_backup = [] :=
  ⟨Reach.repProducts .stopBetweenCommits
      (Reach.insProduct "Widget" "W-1" 10 Reach.init),
    by decide, by decide⟩

/-- Claim C3 (amended): completeness of replication along crash-free
executions.  If `s` is reachable with every pass completed, then after a
further completed pass, every audit row that existed when the pending set was
read has exactly one backup row copied from it, with snapshot fields equal to
the audit row's fields (for both kinds, each under its own routine). -/
theorem replicate_complete_of_reachOK {s : SysState} (h : ReachOK s) :
    (∀ a ∈ s.main.products_audit,
      (∃ b ∈ (replicateProducts .success s).backup.products_backup,
        b.src_audit_id = a.audit_id ∧ b.product_id = a.product_id ∧
        b.name = a.name ∧ b.sku = a.sku ∧ b.unit_price = a.unit_price) ∧
      (∀ b1 ∈ (replicateProducts .success s).backup.products_backup,
       ∀ b2 ∈ (replicateProducts .success s).backup.products_backup,
        b1.src_audit_id = a.audit_id → b2.src_audit_id = a.audit_id → b1 = b2)) ∧
    (∀ a ∈ s.main.order_items_audit,
      (∃ b ∈ (replicateOrderItems .success s).backup.order_items_backup,
        b.src_audit_id = a.audit_id ∧ b.item_id = a.item_id ∧
        b.order_id = a.order_id ∧ b.product_id = a.product_id ∧
        b.description = a.description ∧ b.quantity = a.quantity ∧
        b.unit_price = a.unit_price) ∧
      (∀ b1 ∈ (replicateOrderItems .success s).backup.order_items_backup,
       ∀ b2 ∈ (replicateOrderItems .success s).backup.order_items_backup,
        b1.src_audit_id = a.audit_id → b2.src_audit_id = a.audit_id → b1 = b2)) := by
  constructor
  · have hOK1 : ReachOK (replicateProducts .success s) := ReachOK.repProducts h
    have hb1 := invBase_of_reach (reach_of_reachOK hOK1)
    have hok1 := invOK_of_reachOK hOK1
    intro a ha
    have ha1 : a ∈ (replicateProducts .success s).main.products_audit := ha
    have hl : a.audit_id ∈ (replicateProducts .success s).main.products_backup_ids :=
      audit_id_mem_ledger_after_success a ha
    refine ⟨hok1.pa_ledgered a ha1 hl, ?_⟩
    intro b1 hb1m b2 hb2m h1 h2
    exact List.inj_on_of_nodup_map hb1.pb_nodup hb1m hb2m (by rw [h1, h2])
  · have hOK2 : ReachOK (replicateOrderItems .success s) := ReachOK.repItems h
    have hb2 := invBase_of_reach (reach_of_reachOK hOK2)
    have hok2 := invOK_of_reachOK hOK2
    intro a ha
    have ha1 : a ∈ (replicateOrderItems .success s).main.order_items_audit := ha
    have hl : a.audit_id ∈ (replicateOrderItems .success s).main.order_items_backup_ids :=
      item_audit_id_mem_ledger_after_success a ha
    refine ⟨hok2.oa_ledgered a ha1 hl, ?_⟩
    intro b1 hb1m b2 hb2m h1 h2
    exact List.inj_on_of_nodup_map hb2.ob_nodup hb1m hb2m (by rw [h1, h2])

/-- Claim C3, witness: completeness evaluated at the concrete crash-free
state `sIns` (one pending product audit row). -/
theorem replicate_complete_of_reachOK_witness :
    ReachOK sIns ∧
    ((∀ a ∈ sIns.main.products_audit,
      (∃ b ∈ (replicateProducts .success sIns).backup.products_backup,
        b.src_audit_id = a.audit_id ∧ b.product_id = a.product_id ∧
        b.name = a.name ∧ b.sku = a.sku ∧ b.unit_price = a.unit_price) ∧
      (∀ b1 ∈ (replicateProducts .success sIns).backup.products_backup,
       ∀ b2 ∈ (replicateProducts .success sIns).backup.products_backup,
        b1.src_audit_id = a.audit_id → b2.src_audit_id = a.audit_id → b1 = b2)) ∧
    (∀ a ∈ sIns.main.order_items_audit,
      (∃ b ∈ (replicateOrderItems .success sIns).backup.order_items_backup,
        b.src_audit_id = a.audit_id ∧ b.item_id = a.item_id ∧
        b.order_id = a.order_id ∧ b.product_id = a.product_id ∧
        b.description = a.description ∧ b.quantity = a.quantity ∧
        b.unit_price = a.unit_price) ∧
      (∀ b1 ∈ (replicateOrderItems .success sIns).backup.order_items_backup,
       ∀ b2 ∈ (replicateOrderItems .success sIns).backup.order_items_backup,
        b1.src_audit_id = a.audit_id → b2.src_audit_id = a.audit_id → b1 = b2))) :=
  ⟨ReachOK.insProduct "Widget" "W-1" 10 ReachOK.init,
    replicate_complete_of_reachOK
      (ReachOK.insProduct "Widget" "W-1" 10 ReachOK.init)⟩

end SupplierMgmt

namespace SupplierMgmt

/-- Claim C4 (confirmed): capture atomicity.  An entity insert into a tracked
table appends exactly one audit row in the same atomic step, whose snapshot
fields equal the inserted row's fields; a storage failure inside the
transaction aborts entity row and audit row together
(`insertProductRun .storageFailure` / `insertOrderItemRun .storageFailure`
leave the state untouched); and no other operation of the system — neither
replication pass under any outcome, nor supplier/order inserts, nor the
deactivation update — ever creates an audit row (`seed_demo`'s wipe only
deletes them). -/
theorem insert_creates_exactly_one_audit_row (s : SysState) (nm sk : String)
    (price : Rat) (oid : Nat) (pid : Option Nat) (desc : String)
    (qty up : Rat) (snm scontact sphone semail saddr scity sstate scountry : String)
    (osid : Nat) (ostatus : String) (onotes : Option String) (did : Nat)
    (o : PassOutcome) :
    ((insertProduct nm sk price s).main.products_audit =
      s.main.products_audit ++
        [{ audit_id := s.main.products_audit_seq + 1,
           product_id := nextRowId (s.main.products.map (fun p => p.product_id)),
           name := nm, sku := sk, unit_price := price, audit_time := s.clock }]) ∧
    ((insertProduct nm sk price s).main.products =
      s.main.products ++
        [{ product_id := nextRowId (s.main.products.map (fun p => p.product_id)),
           name := nm, sku := sk, unit_price := price, is_active := 1,
           created_at := s.clock }]) ∧
    (insertProductRun .storageFailure nm sk price s = s) ∧
    ((insertOrderItem oid pid desc qty up s).main.order_items_audit =
      s.main.order_items_audit ++
        [{ audit_id := s.main.order_items_audit_seq + 1,
           item_id := nextRowId (s.main.purchase_order_items.map (fun i => i.item_id)),
           order_id := oid, product_id := pid, description := desc,
           quantity := qty, unit_price := up, audit_time := s.clock }]) ∧
    ((insertOrderItem oid pid desc qty up s).main.purchase_order_items =
      s.main.purchase_order_items ++
        [{ item_id := nextRowId (s.main.purchase_order_items.map (fun i => i.item_id)),
           order_id := oid, product_id := pid, description := desc,
           quantity := qty, unit_price := up }]) ∧
    (insertOrderItemRun .storageFailure oid pid desc qty up s = s) ∧
    ((insertProduct nm sk price s).main.order_items_audit = s.main.order_items_audit) ∧
    ((insertOrderItem oid pid desc qty up s).main.products_audit = s.main.products_audit) ∧
    ((replicateProducts o s).main.products_audit = s.main.products_audit) ∧
    ((replicateProducts o s).main.order_items_audit = s.main.order_items_audit) ∧
    ((replicateOrderItems o s).main.products_audit = s.main.products_audit) ∧
    ((replicateOrderItems o s).main.order_items_audit = s.main.order_items_audit) ∧
    ((insertSupplier snm scontact sphone semail saddr scity sstate scountry s).main.products_audit
      = s.main.products_audit) ∧
    ((insertSupplier snm scontact sphone semail saddr scity sstate scountry s).main.order_items_audit
      = s.main.order_items_audit) ∧
    ((insertPurchaseOrder osid ostatus onotes s).main.products_audit = s.main.products_audit) ∧
    ((insertPurchaseOrder osid ostatus onotes s).main.order_items_audit = s.main.order_items_audit) ∧
    ((supplierDeactivate did s).main.products_audit = s.main.products_audit) ∧
    ((supplierDeactivate did s).main.order_items_audit = s.main.order_items_audit) ∧
    ((seedWipe s).main.products_audit = []) ∧
    ((seedWipe s).main.order_items_audit = []) := by
  refine ⟨rfl, rfl, rfl, rfl, rfl, rfl, rfl, rfl, ?_, ?_, ?_, ?_,
    rfl, rfl, rfl, rfl, rfl, rfl, rfl, rfl⟩
  · cases o <;> rfl
  · cases o <;> rfl
  · cases o <;> rfl
  · cases o <;> rfl

/-- Claim C5, counterexample: the dedup ledger does **not** only grow.
`seed_demo` begins by running `DELETE FROM products_backup_ids` (and the
order-items ledger) and committing: starting from the reachable state
`okState`, whose ledger contains `audit_id = 1`, one `seed_demo` call leaves
a ledger without that entry. -/
theorem seed_demo_deletes_ledger_rows :
    Reach okState ∧
    1 ∈ okState.main.products_backup_ids ∧
    1 ∉ (seed_demo .success .success okState).main.products_backup_ids :=
  ⟨Reach.repProducts .success (Reach.insProduct "Widget" "W-1" 10 Reach.init),
    by decide, by decide⟩

/-- Claim C5 (amended): ledger rows are never updated, and apart from
`seed_demo`'s wipe — which deletes **all** ledger rows — no operation deletes
them: entity inserts and the deactivation update leave the ledgers and the
whole backup store untouched, and each replication pass (under every
outcome) only appends to its own kind's ledger and backup table.  Ledger
inserts and Backup Store writes are thus performed only by the two
replication routines. -/
theorem ledger_single_writer (s : SysState) (nm sk : String) (price : Rat)
    (oid : Nat) (pid : Option Nat) (desc : String) (qty up : Rat)
    (snm scontact sphone semail saddr scity sstate scountry : String)
    (osid : Nat) (ostatus : String) (onotes : Option String) (did : Nat)
    (o : PassOutcome) :
    ((insertProduct nm sk price s).main.products_backup_ids = s.main.products_backup_ids) ∧
    ((insertProduct nm sk price s).main.order_items_backup_ids = s.main.order_items_backup_ids) ∧
    ((insertProduct nm sk price s).backup = s.backup) ∧
    ((insertOrderItem oid pid desc qty up s).main.products_backup_ids = s.main.products_backup_ids) ∧
    ((insertOrderItem oid pid desc qty up s).main.order_items_backup_ids = s.main.order_items_backup_ids) ∧
    ((insertOrderItem oid pid desc qty up s).backup = s.backup) ∧
    ((insertSupplier snm scontact sphone semail saddr scity sstate scountry s).main.products_backup_ids
      = s.main.products_backup_ids) ∧
    ((insertSupplier snm scontact sphone semail saddr scity sstate scountry s).main.order_items_backup_ids
      = s.main.order_items_backup_ids) ∧
    ((insertSupplier snm scontact sphone semail saddr scity sstate scountry s).backup = s.backup) ∧
    ((insertPurchaseOrder osid ostatus onotes s).main.products_backup_ids = s.main.products_backup_ids) ∧
    ((insertPurchaseOrder osid ostatus onotes s).main.order_items_backup_ids = s.main.order_items_backup_ids) ∧
    ((insertPurchaseOrder osid ostatus onotes s).backup = s.backup) ∧
    ((supplierDeactivate did s).main.products_backup_ids = s.main.products_backup_ids) ∧
    ((supplierDeactivate did s).main.order_items_backup_ids = s.main.order_items_backup_ids) ∧
    ((supplierDeactivate did s).backup = s.backup) ∧
    (List.IsPrefix s.main.products_backup_ids ((replicateProducts o s).main.products_backup_ids)) ∧
    ((replicateProducts o s).main.order_items_backup_ids = s.main.order_items_backup_ids) ∧
    (List.IsPrefix s.backup.products_backup ((replicateProducts o s).backup.products_backup)) ∧
    ((replicateProducts o s).backup.order_items_backup = s.backup.order_items_backup) ∧
    (List.IsPrefix s.main.order_items_backup_ids ((replicateOrderItems o s).main.order_items_backup_ids)) ∧
    ((replicateOrderItems o s).main.products_backup_ids = s.main.products_backup_ids) ∧
    (List.IsPrefix s.backup.order_items_backup ((replicateOrderItems o s).backup.order_items_backup)) ∧
    ((replicateOrderItems o s).backup.products_backup = s.backup.products_backup) ∧
    ((seedWipe s).main.products_backup_ids = []) ∧
    ((seedWipe s).main.order_items_backup_ids = []) ∧
    ((seedWipe s).backup = s.backup) := by
  refine ⟨rfl, rfl, rfl, rfl, rfl, rfl, rfl, rfl, rfl, rfl, rfl, rfl, rfl, rfl, rfl,
    ?_, ?_, ?_, ?_, ?_, ?_, ?_, ?_, rfl, rfl, rfl⟩
  · cases o <;> first | exact List.prefix_append _ _ | exact List.prefix_rfl
  · cases o <;> rfl
  · cases o <;> first | exact List.prefix_append _ _ | exact List.prefix_rfl
  · cases o <;> rfl
  · cases o <;> first | exact List.prefix_append _ _ | exact List.prefix_rfl
  · cases o <;> rfl
  · cases o <;> first | exact List.prefix_append _ _ | exact List.prefix_rfl
  · cases o <;> rfl

/-- Claim C6 (confirmed): write-failure atomicity.  If the backup-store
`INSERT` for some pending row raises (`failAtRow k`), the exception
propagates before either `commit`, both open transactions are rolled back,
and the pass has **zero** persisted side effects: the state — in particular
the pending set and both stores — is exactly as before, and a later
successful pass behaves as if the failed one had never run.  A failure while
reading the pending set (`readFailure`) likewise leaves no side effects. -/
theorem failed_pass_has_no_side_effects (s : SysState) (k : Nat) :
    replicateProducts (.failAtRow k) s = s ∧
    replicateProducts .readFailure s = s ∧
    replicateOrderItems (.failAtRow k) s = s ∧
    replicateOrderItems .readFailure s = s ∧
    pendingProducts ((replicateProducts (.failAtRow k) s).main) = pendingProducts s.main ∧
    pendingOrderItems ((replicateOrderItems (.failAtRow k) s).main) = pendingOrderItems s.main ∧
    replicateProducts .success (replicateProducts (.failAtRow k) s) =
      replicateProducts .success s ∧
    replicateOrderItems .success (replicateOrderItems (.failAtRow k) s) =
      replicateOrderItems .success s :=
  ⟨rfl, rfl, rfl, rfl, rfl, rfl, rfl, rfl⟩

end SupplierMgmt

namespace SupplierMgmt

/-- Claim C7, counterexample: a row **can** be lost.  In the reachable state
`crashedState` (pass stopped between `conn.commit()` and `bconn.commit()`)
the audit row with `audit_id = 1` is live, no backup record was ever made
durable, and yet its pending set is already empty — so a subsequent
successful pass still leaves the backup store empty, and (since the pending
selection is the only source of backup writes) the row is never replicated. -/
theorem row_lost_after_crash_between_commits :
    Reach crashedState ∧
    (∃ a ∈ crashedState.main.products_audit, a.audit_id = 1) ∧
    crashedState.backup.products_backup = [] ∧
    pendingProducts crashedState.main = [] ∧
    (replicateProducts .success crashedState).backup.products_backup = [] :=
  ⟨Reach.repProducts .stopBetweenCommits
      (Reach.insProduct "Widget" "W-1" 10 Reach.init),
    by decide, by decide, by decide, by decide⟩

/-- Claim C7 (amended): the no-duplication half holds unconditionally — in
**every** reachable state, interrupted passes included, no two backup rows
of a kind were copied from the same audit row (because the ledger commit
precedes the backup commit, an interrupted pass can only lose rows, never
duplicate them).  The no-loss half is false, as the counterexample shows. -/
theorem no_audit_row_replicated_twice {s : SysState} (h : Reach s) :
    ((s.backup.products_backup.map (fun b => b.src_audit_id)).Nodup) ∧
    ((s.backup.order_items_backup.map (fun b => b.src_audit_id)).Nodup) :=
  ⟨(invBase_of_reach h).pb_nodup, (invBase_of_reach h).ob_nodup⟩

/-- Claim C7, witness: no-duplication evaluated at the concrete state
`crashedState`. -/
theorem no_audit_row_replicated_twice_witness :
    Reach crashedState ∧
    (((crashedState.backup.products_backup.map (fun b => b.src_audit_id)).Nodup) ∧
     ((crashedState.backup.order_items_backup.map (fun b => b.src_audit_id)).Nodup)) :=
  ⟨Reach.repProducts .stopBetweenCommits
      (Reach.insProduct "Widget" "W-1" 10 Reach.init),
    no_audit_row_replicated_twice
      (Reach.repProducts .stopBetweenCommits
        (Reach.insProduct "Widget" "W-1" 10 Reach.init))⟩

/-- Claim C9 (confirmed): the `/backup` viewer lists each kind's backup rows
ordered by `backup_id` descending, and in every reachable state this order
is also nonincreasing in replication time (`backed_up_at`): most recently
replicated first. -/
theorem backup_viewer_time_desc {s : SysState} (h : Reach s) :
    (backupViewerProducts s.backup).Pairwise
      (fun x y => y.backed_up_at ≤ x.backed_up_at) ∧
    (backupViewerOrderItems s.backup).Pairwise
      (fun x y => y.backed_up_at ≤ x.backed_up_at) := by
  have ht := invTime_of_reach h
  constructor
  · show (sortDescBy (fun r => r.backup_id) s.backup.products_backup).Pairwise
      (fun x y => y.backed_up_at ≤ x.backed_up_at)
    refine List.Pairwise.imp_of_mem ?_
      (pairwise_sortDescBy (fun r => r.backup_id) s.backup.products_backup)
    intro a b ha hbm hr
    exact ht.pb_mono b ((mem_sortDescBy _ b _).mp hbm) a
      ((mem_sortDescBy _ a _).mp ha) hr
  · show (sortDescBy (fun r => r.backup_id) s.backup.order_items_backup).Pairwise
      (fun x y => y.backed_up_at ≤ x.backed_up_at)
    refine List.Pairwise.imp_of_mem ?_
      (pairwise_sortDescBy (fun r => r.backup_id) s.backup.order_items_backup)
    intro a b ha hbm hr
    exact ht.ob_mono b ((mem_sortDescBy _ b _).mp hbm) a
      ((mem_sortDescBy _ a _).mp ha) hr

/-- Claim C9, witness: the viewer order evaluated at the concrete state
`okState`. -/
theorem backup_viewer_time_desc_witness :
    Reach okState ∧
    ((backupViewerProducts okState.backup).Pairwise
      (fun x y => y.backed_up_at ≤ x.backed_up_at) ∧
     (backupViewerOrderItems okState.backup).Pairwise
      (fun x y => y.backed_up_at ≤ x.backed_up_at)) :=
  ⟨Reach.repProducts .success (Reach.insProduct "Widget" "W-1" 10 Reach.init),
    backup_viewer_time_desc
      (Reach.repProducts .success (Reach.insProduct "Widget" "W-1" 10 Reach.init))⟩

/-- Claim C10 (confirmed): frame property of a completed replication pass.
`replicate_product_to_backup` appends to exactly two tables —
`products_backup` (backup store) and `products_backup_ids` (primary store) —
and leaves every business table, both audit tables and the order-items
tables of both stores unchanged; symmetrically for
`replicate_order_item_to_backup`.  Neither routine deletes or updates
existing rows (the old table contents are a prefix of the new), and a pass
whose pending set is empty performs no writes at all. -/
theorem replicate_frame (s : SysState) :
    ((replicateProducts .success s).main.suppliers = s.main.suppliers ∧
     (replicateProducts .success s).main.products = s.main.products ∧
     (replicateProducts .success s).main.purchase_orders = s.main.purchase_orders ∧
     (replicateProducts .success s).main.purchase_order_items = s.main.purchase_order_items ∧
     (replicateProducts .success s).main.products_audit = s.main.products_audit ∧
     (replicateProducts .success s).main.order_items_audit = s.main.order_items_audit ∧
     (replicateProducts .success s).main.order_items_backup_ids = s.main.order_items_backup_ids ∧
     (replicateProducts .success s).backup.order_items_backup = s.backup.order_items_backup ∧
     (replicateProducts .success s).main.products_backup_ids =
       s.main.products_backup_ids ++ (pendingProducts s.main).map (fun r => r.audit_id) ∧
     (replicateProducts .success s).backup.products_backup =
       s.backup.products_backup ++
         mkProductsBackup (pendingProducts s.main) s.backup.products_backup_seq s.clock) ∧
    ((replicateOrderItems .success s).main.suppliers = s.main.suppliers ∧
     (replicateOrderItems .success s).main.products = s.main.products ∧
     (replicateOrderItems .success s).main.purchase_orders = s.main.purchase_orders ∧
     (replicateOrderItems .success s).main.purchase_order_items = s.main.purchase_order_items ∧
     (replicateOrderItems .success s).main.products_audit = s.main.products_audit ∧
     (replicateOrderItems .success s).main.order_items_audit = s.main.order_items_audit ∧
     (replicateOrderItems .success s).main.products_backup_ids = s.main.products_backup_ids ∧
     (replicateOrderItems .success s).backup.products_backup = s.backup.products_backup ∧
     (replicateOrderItems .success s).main.order_items_backup_ids =
       s.main.order_items_backup_ids ++ (pendingOrderItems s.main).map (fun r => r.audit_id) ∧
     (replicateOrderItems .success s).backup.order_items_backup =
       s.backup.order_items_backup ++
         mkOrderItemsBackup (pendingOrderItems s.main) s.backup.order_items_backup_seq s.clock) ∧
    ((pendingProducts s.main = [] →
      (replicateProducts .success s).main = s.main ∧
      (replicateProducts .success s).backup = s.backup) ∧
     (pendingOrderItems s.main = [] →
      (replicateOrderItems .success s).main = s.main ∧
      (replicateOrderItems .success s).backup = s.backup)) := by
  refine ⟨⟨rfl, rfl, rfl, rfl, rfl, rfl, rfl, rfl, rfl, rfl⟩,
    ⟨rfl, rfl, rfl, rfl, rfl, rfl, rfl, rfl, rfl, rfl⟩, ⟨?_, ?_⟩⟩
  · intro hp
    constructor
    · rw [replicateProducts_success_main, hp]
      simp
    · rw [replicateProducts_success_backup, hp]
      simp [mkProductsBackup]
  · intro hp
    constructor
    · rw [replicateOrderItems_success_main, hp]
      simp
    · rw [replicateOrderItems_success_backup, hp]
      simp [mkOrderItemsBackup]

/-- Claim C10, witness: the empty-pending case evaluated at the concrete
empty state `initState`. -/
theorem replicate_frame_witness :
    (pendingProducts initState.main = [] ∧ pendingOrderItems initState.main = []) ∧
    ((replicateProducts .success initState).main = initState.main ∧
     (replicateProducts .success initState).backup = initState.backup) ∧
    ((replicateOrderItems .success initState).main = initState.main ∧
     (replicateOrderItems .success initState).backup = initState.backup) :=
  ⟨⟨rfl, rfl⟩, (replicate_frame initState).2.2.1 rfl,
    (replicate_frame initState).2.2.2 rfl⟩

end SupplierMgmt
